import Mathlib

/-!
Verification of the shared-project activity distribution core of vibe-kanban.

Each definition is a shallow embedding of a function of the Rust source
(file and function named in its doc comment).  Machine integers (`i64`)
are modelled as `Int`; UUIDs are opaque and modelled as `Nat`; timestamps
are integer seconds; database side effects are explicit state passing.
-/

namespace VibeKanban

/-- UUIDs are opaque identifiers; equality is all the code uses. -/
abbrev Uuid := Nat

/-- `ActivityEvent` from `crates/remote/src/activity/broker.rs` (lines 18-26).
`seq: i64` is the per-project sequence number; `payload` is an optional JSON
value, modelled as an already-deserialised shared-task payload or an opaque
unparseable blob (the only two outcomes `serde_json::from_value` can have
in `processor.rs`). -/
structure RemoteSharedTask where
  id : Uuid
  project_id : Uuid
  title : String
  description : Option String
  status : String
  assignee_user_id : Option Uuid
  creator_user_id : Option Uuid
  version : Int
  deriving Repr, DecidableEq

/-- `UserData` snapshot carried in shared-task activity payloads. -/
structure UserData where
  first_name : Option String
  last_name : Option String
  username : Option String
  deriving Repr, DecidableEq

/-- Result of `serde_json::from_value::<SharedTaskActivityPayload>` on an
activity payload: either a parsed `{task, user?}` pair or an unparseable
value. -/
inductive ActivityPayload where
  | sharedTask (task : RemoteSharedTask) (user : Option UserData)
  | unparseable
  deriving Repr, DecidableEq

structure ActivityEvent where
  seq : Int
  event_id : Uuid
  project_id : Uuid
  event_type : String
  created_at : Int
  payload : Option ActivityPayload
  deriving Repr, DecidableEq

/-! ## Activity route limit clamping

`crates/remote/src/routes/activity.rs`, `get_activity_stream`, and the
limit constants of `crates/remote/src/config.rs`. -/

/-- `DEFAULT_ACTIVITY_DEFAULT_LIMIT` from `crates/remote/src/config.rs` line 8. -/
def DEFAULT_ACTIVITY_DEFAULT_LIMIT : Int := 200

/-- `DEFAULT_ACTIVITY_MAX_LIMIT` from `crates/remote/src/config.rs` line 10. -/
def DEFAULT_ACTIVITY_MAX_LIMIT : Int := 500

/-- Rust `i64::clamp(self, min, max)`: `min(max(self, lo), hi)`. -/
def i64Clamp (x lo hi : Int) : Int := min (max x lo) hi

/-- The effective limit computed by `get_activity_stream`
(`crates/remote/src/routes/activity.rs` lines 42-45):
`params.limit.unwrap_or(config.activity_default_limit).clamp(1, config.activity_max_limit)`.
`RemoteServerConfig::from_env` always sets `activity_default_limit = 200`
and `activity_max_limit = 500` (`config.rs` lines 53-54). -/
def effective_limit (requested : Option Int) : Int :=
  i64Clamp (requested.getD DEFAULT_ACTIVITY_DEFAULT_LIMIT) 1 DEFAULT_ACTIVITY_MAX_LIMIT

/-! ## Session touch (Session Gate)

`crates/remote/src/db/auth.rs`, `AuthSessionRepository::touch`, called by
`require_session` in `crates/remote/src/auth/middleware.rs` line 110. -/

/-- `AuthSession` row from `crates/remote/src/db/auth.rs` lines 15-23,
extended with the `refresh_token_id` column that `routes/tokens.rs`
reads on it. Timestamps are integer seconds. -/
structure AuthSession where
  id : Uuid
  user_id : Uuid
  session_secret_hash : Option String
  refresh_token_id : Option Uuid
  created_at : Int
  last_used_at : Option Int
  revoked_at : Option Int
  deriving Repr, DecidableEq

/-- Postgres `date_trunc('day', t)` on a timestamp in integer seconds:
floor to the enclosing UTC day boundary. -/
def dateTruncDay (t : Int) : Int := 86400 * (Int.fdiv t 86400)

/-- `AuthSessionRepository::touch` (`crates/remote/src/db/auth.rs` lines 83-99):
`UPDATE auth_sessions SET last_used_at = date_trunc('day', NOW()) WHERE id = $1
AND (last_used_at IS NULL OR last_used_at < date_trunc('day', NOW()))`,
modelled on the single row of the session (the `WHERE id` part selects it). -/
def touch (s : AuthSession) (now : Int) : AuthSession :=
  match s.last_used_at with
  | none => { s with last_used_at := some (dateTruncDay now) }
  | some t =>
      if t < dateTruncDay now then { s with last_used_at := some (dateTruncDay now) }
      else s

/-! ## Token service (JWT claims)

`crates/remote/src/auth/jwt.rs`. Signing and base64 are outside the model;
a token is represented by its claim set, and decoding by the validation
`jsonwebtoken` performs on the claims (`exp` with leeway, audience). -/

/-- `ACCESS_TOKEN_TTL_SECONDS` from `crates/remote/src/auth/jwt.rs` line 12. -/
def ACCESS_TOKEN_TTL_SECONDS : Int := 120

/-- `REFRESH_TOKEN_TTL_DAYS` from `crates/remote/src/auth/jwt.rs` line 13. -/
def REFRESH_TOKEN_TTL_DAYS : Int := 365

/-- `DEFAULT_JWT_LEEWAY_SECONDS` from `crates/remote/src/auth/jwt.rs` line 14. -/
def DEFAULT_JWT_LEEWAY_SECONDS : Int := 60

/-- `AccessTokenClaims` from `crates/remote/src/auth/jwt.rs` lines 34-41. -/
structure AccessTokenClaims where
  sub : Uuid
  session_id : Uuid
  iat : Int
  exp : Int
  aud : String
  deriving Repr, DecidableEq

/-- `RefreshTokenClaims` from `crates/remote/src/auth/jwt.rs` lines 43-51. -/
structure RefreshTokenClaims where
  sub : Uuid
  session_id : Uuid
  jti : Uuid
  iat : Int
  exp : Int
  aud : String
  deriving Repr, DecidableEq

/-- `TokenPair` from `crates/remote/src/auth/jwt.rs` lines 72-77, with the
two tokens represented by their claim sets. -/
structure TokenPair where
  access_token : AccessTokenClaims
  refresh_token : RefreshTokenClaims
  refresh_token_id : Uuid
  deriving Repr, DecidableEq

/-- `JwtError` from `crates/remote/src/auth/jwt.rs` lines 16-32 (the
variants reachable in the model). -/
inductive JwtError where
  | invalidToken
  | tokenExpired
  | invalidTokenType
  deriving Repr, DecidableEq

/-- `JwtService::generate_tokens` (`crates/remote/src/auth/jwt.rs` lines
86-134). `now` is `Utc::now().timestamp()`; `refresh_token_id` is the
`Uuid::new_v4()` drawn there, passed in as `freshJti`.
`chrono::Duration::seconds` and `::days` shift the instant by exactly that
many seconds (one day = 86400 s), so the `.timestamp()` of the shifted
instant is `now + ttl`. -/
def generate_tokens (now : Int) (freshJti : Uuid) (sessionId userId : Uuid) : TokenPair :=
  let access_exp := now + ACCESS_TOKEN_TTL_SECONDS
  let access_claims : AccessTokenClaims :=
    { sub := userId, session_id := sessionId, iat := now, exp := access_exp, aud := "access" }
  let refresh_exp := now + REFRESH_TOKEN_TTL_DAYS * 86400
  let refresh_claims : RefreshTokenClaims :=
    { sub := userId, session_id := sessionId, jti := freshJti, iat := now,
      exp := refresh_exp, aud := "refresh" }
  { access_token := access_claims, refresh_token := refresh_claims,
    refresh_token_id := freshJti }

/-- `AccessTokenDetails` from `crates/remote/src/auth/jwt.rs` lines 53-58. -/
structure AccessTokenDetails where
  user_id : Uuid
  session_id : Uuid
  expires_at : Int
  deriving Repr, DecidableEq

/-- `RefreshTokenDetails` from `crates/remote/src/auth/jwt.rs` lines 60-65. -/
structure RefreshTokenDetails where
  user_id : Uuid
  session_id : Uuid
  refresh_token_id : Uuid
  deriving Repr, DecidableEq

/-- The claim validation `jsonwebtoken::decode` performs in
`decode_access_token_with_leeway` (`crates/remote/src/auth/jwt.rs` lines
140-167): `validate_exp = true` (expired when `exp < now - leeway`) and
`set_audience(&["access"])` (invalid audience otherwise). -/
def decode_access_token_with_leeway (c : AccessTokenClaims) (now leeway : Int) :
    Except JwtError AccessTokenDetails :=
  if c.exp < now - leeway then .error .tokenExpired
  else if c.aud ≠ "access" then .error .invalidToken
  else .ok { user_id := c.sub, session_id := c.session_id, expires_at := c.exp }

/-- The claim validation of `decode_refresh_token`
(`crates/remote/src/auth/jwt.rs` lines 169-195): 60 s leeway on `exp` and
`set_audience(&["refresh"])`. -/
def decode_refresh_token (c : RefreshTokenClaims) (now : Int) :
    Except JwtError RefreshTokenDetails :=
  if c.exp < now - DEFAULT_JWT_LEEWAY_SECONDS then .error .tokenExpired
  else if c.aud ≠ "refresh" then .error .invalidToken
  else .ok { user_id := c.sub, session_id := c.session_id, refresh_token_id := c.jti }

/-! ## Token refresh handler

`crates/remote/src/routes/tokens.rs`. The handler body is in the source;
the `AuthSessionRepository` methods it calls (`get`,
`is_refresh_token_revoked`, `revoke_all_user_sessions`, `rotate_tokens`)
are declared in `crates/remote/src/db/auth.rs`, which in the source tree
lacks the token-rotation methods, so those are modelled from the spec. -/

/-- `TokenRefreshError` from `crates/remote/src/routes/tokens.rs` lines 25-43
(the `Jwt`, `Database`, `Identity` variants collapse into the ones the model
can reach). -/
inductive TokenRefreshError where
  | invalidToken
  | sessionRevoked
  | tokenExpired
  | tokenReuseDetected
  | sessionError
  deriving Repr, DecidableEq

/-- The `(StatusCode, error_code)` pair of
`impl IntoResponse for TokenRefreshError`
(`crates/remote/src/routes/tokens.rs` lines 117-131). -/
def TokenRefreshError.into_response : TokenRefreshError → Nat × String
  | .invalidToken => (401, "invalid_token")
  | .tokenExpired => (401, "token_expired")
  | .sessionRevoked => (401, "session_revoked")
  | .tokenReuseDetected => (401, "token_reuse_detected")
  | .sessionError => (500, "internal_error")

/-- Modelled from the spec: the auth-session store consulted by the token
refresh handler. `crates/remote/src/db/auth.rs` in the source tree lacks
the rotation-related state, so the revoked-`jti` reuse-detection set
(spec §3, RefreshTokenRecord) is carried here next to the session rows. -/
structure AuthDb where
  sessions : List AuthSession
  revoked_token_ids : List Uuid
  deriving Repr, DecidableEq

/-- `AuthSessionRepository::get`: the session row with the given id
(`crates/remote/src/db/auth.rs` lines 62-81; `NotFound` when absent). -/
def AuthDb.get (db : AuthDb) (sessionId : Uuid) : Option AuthSession :=
  db.sessions.find? (fun s => s.id = sessionId)

/-- Modelled from the spec: `AuthSessionRepository::is_refresh_token_revoked`
(absent from `crates/remote/src/db/auth.rs` in the source tree) — membership
of the presented `jti` in the revoked-tokens set (spec §4.4 step 4). -/
def AuthDb.is_refresh_token_revoked (db : AuthDb) (jti : Uuid) : Bool :=
  db.revoked_token_ids.contains jti

/-- Modelled from the spec: `AuthSessionRepository::revoke_all_user_sessions`
(absent from `crates/remote/src/db/auth.rs` in the source tree) — sets
`revoked_at` on every session of the user (spec §4.4 step 4 and §8
invariant 3: afterwards all sessions of that user have
`revoked_at != null`). -/
def AuthDb.revoke_all_user_sessions (db : AuthDb) (userId : Uuid) (now : Int) : AuthDb :=
  { db with
    sessions := db.sessions.map (fun s =>
      if s.user_id = userId ∧ s.revoked_at = none
      then { s with revoked_at := some now } else s) }

/-- Outcome of `AuthSessionRepository::rotate_tokens`. Modelled from the
spec: the rotation is an atomic compare-and-swap of
`session.refresh_token_id` from the old `jti` to the new one (spec §5);
losing the swap to a concurrent refresh surfaces as
`AuthSessionError::TokenReuseDetected`, any other database failure as a
generic session error. The outcome is an oracle input of the handler
because the method body is not in the source tree. -/
inductive RotateOutcome where
  | ok
  | reuseDetected
  | otherError
  deriving Repr, DecidableEq

/-- Result of one `POST /v1/tokens/refresh` call: the HTTP-level outcome
plus the auth-session store the handler leaves behind. -/
structure RefreshResult where
  response : Except TokenRefreshError TokenPair
  db : AuthDb
  deriving Repr

/-- `refresh_token` handler (`crates/remote/src/routes/tokens.rs` lines
45-115). `decode` is the outcome of
`jwt_service.decode_refresh_token(&payload.refresh_token)`; `freshJti`
the `Uuid::new_v4()` drawn inside `generate_tokens`; `rotate` the oracle
outcome of `rotate_tokens(session.id, old_token_id, new_token_id)`;
`now` the wall clock used for revocation timestamps. On the successful
rotation path the store update itself is inside `rotate_tokens`, which
is not in the source tree, so the returned store is updated per the spec
(new `jti` stored, old `jti` added to the revoked set). -/
def refresh_token (db : AuthDb) (decode : Except JwtError RefreshTokenDetails)
    (freshJti : Uuid) (rotate : RotateOutcome) (now : Int) : RefreshResult :=
  match decode with
  | .error .tokenExpired => { response := .error .tokenExpired, db := db }
  | .error _ => { response := .error .invalidToken, db := db }
  | .ok token_details =>
    match db.get token_details.session_id with
    | none => { response := .error .sessionError, db := db }
    | some session =>
      if session.revoked_at ≠ none then
        { response := .error .sessionRevoked, db := db }
      else if session.refresh_token_id ≠ some token_details.refresh_token_id
          ∨ db.is_refresh_token_revoked token_details.refresh_token_id then
        { response := .error .tokenReuseDetected,
          db := db.revoke_all_user_sessions token_details.user_id now }
      else
        let tokens := generate_tokens now freshJti session.id token_details.user_id
        let old_token_id := token_details.refresh_token_id
        match rotate with
        | .ok =>
          { response := .ok tokens,
            db := { sessions := db.sessions.map (fun s =>
                      if s.id = session.id
                      then { s with refresh_token_id := some tokens.refresh_token_id }
                      else s),
                    revoked_token_ids := old_token_id :: db.revoked_token_ids } }
        | .reuseDetected =>
          { response := .error .tokenReuseDetected,
            db := db.revoke_all_user_sessions token_details.user_id now }
        | .otherError => { response := .error .sessionError, db := db }

/-! ## Client watcher reconnect backoff

`crates/services/src/services/share.rs`: `Backoff` (lines 94-115) and the
connect/reconnect structure of `project_watcher_task` (lines 379-489).
Durations are integer seconds. -/

/-- `WS_BACKOFF_BASE_DELAY` (`share.rs` line 91), in seconds. -/
def WS_BACKOFF_BASE_DELAY : Nat := 1

/-- `WS_BACKOFF_MAX_DELAY` (`share.rs` line 92), in seconds. -/
def WS_BACKOFF_MAX_DELAY : Nat := 30

/-- `Backoff` (`share.rs` lines 94-97). -/
structure Backoff where
  current : Nat
  deriving Repr, DecidableEq

/-- `Backoff::new` (`share.rs` lines 99-103). -/
def Backoff.init : Backoff := { current := WS_BACKOFF_BASE_DELAY }

/-- `Backoff::reset` (`share.rs` lines 105-107). -/
def Backoff.reset (_ : Backoff) : Backoff := { current := WS_BACKOFF_BASE_DELAY }

/-- `Backoff::wait` (`share.rs` lines 109-114): sleeps `current`, then sets
`current = min(current * 2, WS_BACKOFF_MAX_DELAY)`. Returns the slept
delay and the successor state (`checked_mul` cannot overflow in ℕ). -/
def Backoff.wait (b : Backoff) : Nat × Backoff :=
  (b.current, { current := min (b.current * 2) WS_BACKOFF_MAX_DELAY })

/-- One iteration outcome of the websocket connect loop in
`project_watcher_task`: either `spawn_shared_remote` fails, or the
connection is established and later closes after delivering `events`
activity events. -/
inductive AttemptOutcome where
  | connectFailed
  | connected (events : Nat)
  deriving Repr, DecidableEq

/-- The sequence of backoff delays slept by `project_watcher_task`
(`share.rs` lines 379-489) across connection attempts, with cached auth
present and no shutdown. A failed `spawn_shared_remote` waits via
`backoff.wait()` (lines 449-456); a successful one calls
`backoff.reset()` (line 438) and, when the socket later closes, waits via
`backoff.wait()` before reconnecting (lines 467-486). No reset happens on
event receipt (`SharedWsHandler::handle_message` never touches the
backoff). -/
def watcherDelays : Backoff → List AttemptOutcome → List Nat
  | _, [] => []
  | b, .connectFailed :: rest =>
      let (d, b') := b.wait
      d :: watcherDelays b' rest
  | b, .connected _ :: rest =>
      let (d, b') := b.reset.wait
      d :: watcherDelays b' rest

/-- The delay policy the claim states, written from its words: the wait
doubles (capped at 30 s) after every sleep, and the backoff is reset to
1 s on any successful event — so a connection that delivers at least one
event resets it, and one that delivers none leaves it untouched. -/
def claimedDelays : Nat → List AttemptOutcome → List Nat
  | _, [] => []
  | cur, .connectFailed :: rest =>
      cur :: claimedDelays (min (cur * 2) WS_BACKOFF_MAX_DELAY) rest
  | cur, .connected n :: rest =>
      let cur' := if 0 < n then WS_BACKOFF_BASE_DELAY else cur
      cur' :: claimedDelays (min (cur' * 2) WS_BACKOFF_MAX_DELAY) rest

/-- The amended policy: reset to 1 s on successful connection
establishment, doubling (capped at 30 s) after every sleep otherwise. -/
def amendedDelays : Nat → List AttemptOutcome → List Nat
  | _, [] => []
  | cur, .connectFailed :: rest =>
      cur :: amendedDelays (min (cur * 2) WS_BACKOFF_MAX_DELAY) rest
  | _, .connected _ :: rest =>
      WS_BACKOFF_BASE_DELAY ::
        amendedDelays (min (WS_BACKOFF_BASE_DELAY * 2) WS_BACKOFF_MAX_DELAY) rest

/-! ## Activity broker

`crates/remote/src/activity/broker.rs`. A broadcast shard is modelled by
the list of items its `BroadcastStream` delivers to one subscriber:
events in publish order, interspersed with `Lagged(n)` markers where the
subscriber fell behind, ending when the senders are dropped. -/

/-- One item yielded by `BroadcastStream`:
`Result<ActivityEvent, BroadcastStreamRecvError::Lagged(u64)>`. -/
inductive ShardItem where
  | ok (e : ActivityEvent)
  | lagged (n : Nat)
  deriving Repr, DecidableEq

/-- `ActivityBroker::shard_index` (`broker.rs` lines 95-99): a stable hash
of the project id modulo the shard count. The hasher is opaque; `hash`
stands for `DefaultHasher::finish` on the id. -/
def shard_index (shardCount : Nat) (hash : Uuid → Nat) (projectId : Uuid) : Nat :=
  hash projectId % shardCount

/-- The items a publish sequence places on one shard:
`ActivityBroker::publish` (`broker.rs` lines 88-93) sends each event to
shard `shard_index(event.project_id)`, so shard `i` receives exactly the
events hashing to it, in publish order. -/
def shardItems (shardCount : Nat) (hash : Uuid → Nat) (published : List ActivityEvent)
    (i : Nat) : List ActivityEvent :=
  published.filter (fun e => shard_index shardCount hash e.project_id = i)

/-- The `filter_map` closure of `ActivityBroker::subscribe`
(`broker.rs` lines 77-83) applied to the delivered shard items:
`Ok(event)` is kept iff `event.project_id == project_id`, every `Err`
(lag marker) is passed through. -/
def subscribe_filter (projectId : Uuid) : List ShardItem → List ShardItem
  | [] => []
  | .ok e :: rest =>
      if e.project_id = projectId then .ok e :: subscribe_filter projectId rest
      else subscribe_filter projectId rest
  | .lagged n :: rest => .lagged n :: subscribe_filter projectId rest

/-! ## Activity Store reads

Modelled from the spec: `ActivityRepository::fetch_since`
(`crates/remote/src/db/activity.rs` is not in the source tree; spec §4.1):
`SELECT … WHERE project_id = ? AND seq > ? ORDER BY seq ASC LIMIT n` —
events with `seq > after_seq` (all events when `after_seq` is `None`)
ordered by `seq`, up to `limit`. The store is a list of events kept in
ascending `seq` order (the `ORDER BY`); theorems that need the ordering
carry it as a hypothesis or use a concrete gap-free store. -/

/-- `seq > after` when an `after` cursor was given, else unconditionally. -/
def afterOk (after : Option Int) (seq : Int) : Bool :=
  match after with
  | none => true
  | some a => a < seq

/-- Modelled from the spec: `ActivityRepository::fetch_since` over a store
list kept in ascending `seq` order. -/
def fetch_since (store : List ActivityEvent) (pid : Uuid) (after : Option Int)
    (limit : Nat) : List ActivityEvent :=
  (store.filter (fun e => e.project_id == pid && afterOk after e.seq)).take limit

/-- A store that satisfies spec §3 invariant 1 for project `pid`: events
`seq = 1, …, n` with no gaps. Used to instantiate the catch-up theorems. -/
def mkEvent (pid : Uuid) (seq : Int) : ActivityEvent :=
  { seq := seq, event_id := seq.toNat, project_id := pid,
    event_type := "task.updated", created_at := 0, payload := none }

/-- `k` consecutive events of project `pid` with seqs `s, s+1, …, s+k-1`. -/
def intSeqEvents (pid : Uuid) (s : Int) : Nat → List ActivityEvent
  | 0 => []
  | k + 1 => mkEvent pid s :: intSeqEvents pid (s + 1) k

/-- The gap-free store with events `1..n` for one project. -/
def contigStore (pid : Uuid) (n : Nat) : List ActivityEvent :=
  intSeqEvents pid 1 n

/-! ## WS session

`crates/remote/src/ws/session.rs`. Frames the session writes to the
socket; socket sends are modelled as succeeding (the send-failure path
merely truncates the frame list and emits nothing further). -/

/-- A serialised `ServerMessage` written to the websocket
(`crates/remote/src/ws/message.rs` tagged union): an activity frame or an
error frame. -/
inductive ServerFrame where
  | activity (e : ActivityEvent)
  | errorMsg (msg : String)
  deriving Repr, DecidableEq

/-- `CatchUpError` from `crates/remote/src/ws/session.rs` lines 457-463.
The `send` variant is unreachable here because socket sends are modelled
as succeeding. -/
inductive CatchUpError where
  | stale
  | send
  deriving Repr, DecidableEq

/-- Result of the `for event in events` loop body inside
`catch_up_from_db` (`session.rs` lines 492-504): either the early
`return Ok(current_seq)` taken when an event overshoots `target_seq`, or
fall-through to the end of the page with the updated accumulators. -/
inductive PageResult where
  | early (sent : List ActivityEvent) (current : Int)
  | done (sent : List ActivityEvent) (current cursor : Int)
  deriving Repr, DecidableEq

/-- The sent list of a page-loop result. -/
def PageResult.sentList : PageResult → List ActivityEvent
  | .early s _ => s
  | .done s _ _ => s

/-- The `current_seq` value of a page-loop result. -/
def PageResult.currentVal : PageResult → Int
  | .early _ c => c
  | .done _ c _ => c

/-- The `for event in events` loop of `catch_up_from_db` (`session.rs`
lines 492-504): skip events with `seq ≤ current_seq`, return early on
`seq > target_seq`, otherwise send and advance `current_seq`/`cursor`. -/
def processPage (target : Int) : List ActivityEvent → List ActivityEvent → Int → Int →
    PageResult
  | [], sent, current, cursor => .done sent current cursor
  | e :: rest, sent, current, cursor =>
    if e.seq ≤ current then processPage target rest sent current cursor
    else if target < e.seq then .early sent current
    else processPage target rest (sent ++ [e]) e.seq e.seq

/-- The fetch loop of `catch_up_from_db` (`session.rs` lines 478-509),
with explicit fuel (`none` = fuel exhausted; the Rust loop has no bound,
the theorems show the fuel needed). Each round fetches
`fetch_since(project_id, Some(cursor), batch_size)`; an empty page is
`CatchUpError::Stale`; otherwise the page is processed and the loop ends
once `current_seq >= target_seq`. -/
def catchUpLoop (store : List ActivityEvent) (pid : Uuid) (target : Int) (batch : Nat) :
    Nat → Int → Int → List ActivityEvent →
    Option (List ActivityEvent × Except CatchUpError Int)
  | 0, _, _, _ => none
  | fuel + 1, current, cursor, sent =>
    let events := fetch_since store pid (some cursor) batch
    if events.isEmpty then some (sent, .error .stale)
    else
      match processPage target events sent current cursor with
      | .early sent' current' => some (sent', .ok current')
      | .done sent' current' cursor' =>
        if target ≤ current' then some (sent', .ok current')
        else catchUpLoop store pid target batch fuel current' cursor' sent'

/-- `catch_up_from_db` (`session.rs` lines 465-512): both accumulators
start at `last_seq` and the sent list starts empty. -/
def catch_up_from_db (store : List ActivityEvent) (pid : Uuid)
    (last_seq target_seq : Int) (batch : Nat) (fuel : Nat) :
    Option (List ActivityEvent × Except CatchUpError Int) :=
  catchUpLoop store pid target_seq batch fuel last_seq last_seq []

/-- Overall outcome of `activity_stream_catch_up`: resume LIVE with the
given frames sent and `last_sent` updated, or terminate the session after
the given frames, or fuel ran out (model artifact). -/
inductive CatchUpResult where
  | resume (frames : List ServerFrame) (lastSent : Int)
  | terminate (frames : List ServerFrame)
  | outOfFuel
  deriving Repr, DecidableEq

/-- `activity_stream_catch_up` (`session.rs` lines 396-455). `drained` is
the first item of the fresh broker subscription (`activity_stream.next()`,
lines 409-415): `none` models `Some(Err(_)) | None`, which sends the
error frame and terminates. With a drained event: `target_seq := event.seq`;
if `target_seq ≤ last_seq` resume immediately; if
`target_seq - last_seq > bulk_limit.max(1)` send the error frame and
terminate; otherwise run `catch_up_from_db` with
`batch_size.max(1)` and translate its result (lines 447-454). -/
def activity_stream_catch_up (store : List ActivityEvent) (pid : Uuid)
    (last_seq : Int) (batch_size bulk_limit : Int) (drained : Option ActivityEvent)
    (fuel : Nat) : CatchUpResult :=
  match drained with
  | none => .terminate [.errorMsg "activity backlog dropped"]
  | some event =>
    let target_seq := event.seq
    if target_seq ≤ last_seq then .resume [] last_seq
    else
      let bulk := max bulk_limit 1
      let diff := target_seq - last_seq
      if bulk < diff then .terminate [.errorMsg "activity backlog dropped"]
      else
        match catch_up_from_db store pid last_seq target_seq (max batch_size 1).toNat fuel with
        | none => .outOfFuel
        | some (sent, .ok seq) => .resume (sent.map .activity) seq
        | some (sent, .error .stale) =>
            .terminate (sent.map .activity ++ [.errorMsg "activity backlog dropped"])
        | some (sent, .error .send) => .terminate (sent.map .activity)

/-- One item delivered by the subscribed broker stream to the LIVE loop
(`session.rs` lines 99-172): an event, a `Lagged(n)` marker, or stream
end (`None`, which also stands for a close frame / receive error on the
inbound side — every branch that just breaks the loop). Inbound `Ack`
and `AuthToken` messages and auth ticks emit no activity frames and do
not move `last_sent_seq`, so they are not part of the trace. -/
inductive LiveInput where
  | event (e : ActivityEvent)
  | lagged (n : Nat)
  | streamClosed
  deriving Repr, DecidableEq

/-- The one event the catch-up's fresh subscription drains
(`activity_stream.next()`, `session.rs` lines 409-415): the next
delivered broker item when it is an event, `none` (= `Some(Err(_)) | None`
there) otherwise. -/
def drainHead : List LiveInput → Option ActivityEvent
  | .event d :: _ => some d
  | _ => none

/-- The broker items still to deliver after the catch-up drain. -/
def drainTail : List LiveInput → List LiveInput
  | .event _ :: rest' => rest'
  | l => l

/-- The LIVE loop of `handle` (`session.rs` lines 97-222) restricted to
the activity branch, as a function from the delivered broker items to the
frames written. On a gap (`prev + 1 < e.seq`) or lag with baseline, the
session runs `activity_stream_catch_up`, whose fresh subscription drains
the next delivered event; `.resume` continues the loop with the returned
`last_sent`; `.terminate` breaks. -/
def sessionLive (store : List ActivityEvent) (pid : Uuid) (batch bulk : Int)
    (fuel : Nat) : Option Int → List LiveInput → List ServerFrame
  | _, [] => []
  | _, .streamClosed :: _ => []
  | none, .event e :: rest =>
      .activity e :: sessionLive store pid batch bulk fuel (some e.seq) rest
  | some prev, .event e :: rest =>
      if e.seq ≤ prev then sessionLive store pid batch bulk fuel (some prev) rest
      else if prev + 1 < e.seq then
        match drainHead rest with
        | some d =>
          match activity_stream_catch_up store pid prev batch bulk (some d) fuel with
          | .resume frames seq =>
              frames ++ sessionLive store pid batch bulk fuel (some seq) (drainTail rest)
          | .terminate frames => frames
          | .outOfFuel => []
        | none => [.errorMsg "activity backlog dropped"]
      else .activity e :: sessionLive store pid batch bulk fuel (some e.seq) rest
  | none, .lagged _ :: _ => [.errorMsg "activity backlog dropped"]
  | some prev, .lagged _ :: rest =>
      match drainHead rest with
      | some d =>
        match activity_stream_catch_up store pid prev batch bulk (some d) fuel with
        | .resume frames seq =>
            frames ++ sessionLive store pid batch bulk fuel (some seq) (drainTail rest)
        | .terminate frames => frames
        | .outOfFuel => []
      | none => [.errorMsg "activity backlog dropped"]
termination_by last inputs => inputs.length
decreasing_by
  all_goals simp only [List.length_cons]
  all_goals first
    | omega
    | (rcases rest with _ | ⟨hd, t⟩
       · simp [drainTail]
       · cases hd <;> simp [drainTail] <;> omega)

/-- The REPLAY phase of `handle` (`session.rs` lines 83-93): each history
event is sent and `last_sent_seq` is set to its `seq`. -/
def replayFrames (history : List ActivityEvent) : List ServerFrame :=
  history.map .activity

/-- `last_sent_seq` after the REPLAY loop: the last history event's `seq`,
or the client cursor if the history was empty. -/
def replayLast (cursor : Option Int) (history : List ActivityEvent) : Option Int :=
  match history.getLast? with
  | none => cursor
  | some e => some e.seq

/-- `handle` (`session.rs` lines 38-222) as a frame trace: REPLAY then
LIVE. `fetchOk` is whether the initial
`ActivityRepository::fetch_since(project_id, params.cursor,
config.activity_default_limit)` succeeded (`if let Ok(history) = …`,
line 83); on failure nothing is sent and the LIVE loop starts with
`last_sent_seq` still equal to `params.cursor`. -/
def session_handle (store : List ActivityEvent) (pid : Uuid) (default_limit : Nat)
    (batch bulk : Int) (fuel : Nat) (cursor : Option Int) (fetchOk : Bool)
    (inputs : List LiveInput) : List ServerFrame :=
  if fetchOk then
    let history := fetch_since store pid cursor default_limit
    replayFrames history ++
      sessionLive store pid batch bulk fuel (replayLast cursor history) inputs
  else
    sessionLive store pid batch bulk fuel cursor inputs

/-- The `seq` values of the activity frames in a trace (error frames
carry none). -/
def activitySeqs (frames : List ServerFrame) : List Int :=
  frames.filterMap (fun f => match f with
    | .activity e => some e.seq
    | .errorMsg _ => none)

/-! ## Client sync engine (activity processor)

`crates/services/src/services/share/processor.rs` and the local database
models of `crates/db/src/models/shared_task.rs`. The local `shared_tasks`
mirror is a list of rows keyed by unique `id`; the per-project activity
cursor is a finite map. The private-`tasks` mirroring of
`sync_local_task_for_shared_task` touches a different table and is not
observed by the claims, so it is left out of the state. -/

/-- Local `shared_tasks` row (`crates/db/src/models/shared_task.rs` lines
9-26), minus the timestamps the claims never read. -/
structure SharedTaskRow where
  id : Uuid
  remote_project_id : Uuid
  title : String
  description : Option String
  status : String
  assignee_user_id : Option Uuid
  assignee_first_name : Option String
  assignee_last_name : Option String
  assignee_username : Option String
  version : Int
  last_event_seq : Option Int
  deriving Repr, DecidableEq

/-- `convert_remote_task` (`crates/services/src/services/share.rs` lines
589-609): build the upsert input from the remote task, the optional user
snapshot and the event seq. -/
def convert_remote_task (task : RemoteSharedTask) (user : Option UserData)
    (last_event_seq : Option Int) : SharedTaskRow :=
  { id := task.id,
    remote_project_id := task.project_id,
    title := task.title,
    description := task.description,
    status := task.status,
    assignee_user_id := task.assignee_user_id,
    assignee_first_name := user.bind (fun u => u.first_name),
    assignee_last_name := user.bind (fun u => u.last_name),
    assignee_username := user.bind (fun u => u.username),
    version := task.version,
    last_event_seq := last_event_seq }

/-- `SharedTask::upsert` (`crates/db/src/models/shared_task.rs` lines
77-140): `INSERT … ON CONFLICT(id) DO UPDATE` — replace the row with the
same `id`, or append. -/
def upsertTask : List SharedTaskRow → SharedTaskRow → List SharedTaskRow
  | [], r => [r]
  | t :: rest, r => if t.id = r.id then r :: rest else t :: upsertTask rest r

/-- `SharedTask::remove` / `remove_many` (`shared_task.rs` lines 176-202):
`DELETE FROM shared_tasks WHERE id IN (…)`. -/
def removeTasks (ts : List SharedTaskRow) (ids : List Uuid) : List SharedTaskRow :=
  ts.filter (fun t => ¬ ids.contains t.id)

/-- The client-local database: the `shared_tasks` mirror and the
`shared_activity_cursors` table (`shared_task.rs` lines 235-300) as a
map from `remote_project_id` to `last_seq`. -/
structure LocalDb where
  shared_tasks : List SharedTaskRow
  cursors : Uuid → Option Int

/-- `SharedActivityCursor::upsert` (`shared_task.rs` lines 262-300). -/
def LocalDb.setCursor (db : LocalDb) (pid : Uuid) (seq : Int) : LocalDb :=
  { db with cursors := fun q => if q = pid then some seq else db.cursors q }

/-- Row lookup by primary key in a task list. -/
def tasksFind (ts : List SharedTaskRow) (i : Uuid) : Option SharedTaskRow :=
  ts.find? (fun t => t.id = i)

/-- Row lookup by primary key in the local mirror. -/
def LocalDb.findTask (db : LocalDb) (i : Uuid) : Option SharedTaskRow :=
  tasksFind db.shared_tasks i

/-- `process_upsert_event` (`processor.rs` lines 145-191): a parseable
`SharedTaskActivityPayload` is upserted with `last_event_seq =
Some(event.seq)`; a missing or unparseable payload is skipped. -/
def process_upsert_event (db : LocalDb) (event : ActivityEvent) : LocalDb :=
  match event.payload with
  | some (.sharedTask task user) =>
      { db with shared_tasks :=
          upsertTask db.shared_tasks (convert_remote_task task user (some event.seq)) }
  | _ => db

/-- `process_deleted_task_event` (`processor.rs` lines 193-225): a
parseable payload removes the shared-task row; otherwise skip. -/
def process_deleted_task_event (db : LocalDb) (event : ActivityEvent) : LocalDb :=
  match event.payload with
  | some (.sharedTask task _) =>
      { db with shared_tasks := removeTasks db.shared_tasks [task.id] }
  | _ => db

/-- `process_event` (`processor.rs` lines 51-61): dispatch on
`event_type`, then `SharedActivityCursor::upsert(project_id, seq)`, all
in one transaction. -/
def process_event (db : LocalDb) (event : ActivityEvent) : LocalDb :=
  let db' :=
    if event.event_type = "task.deleted" then process_deleted_task_event db event
    else process_upsert_event db event
  db'.setCursor event.project_id event.seq

/-- `BulkSharedTasksResponse` payload entries
(`remote::routes::tasks`, consumed in `processor.rs` lines 234-255). -/
structure BulkTaskPayload where
  task : RemoteSharedTask
  user : Option UserData
  deriving Repr, DecidableEq

/-- `BulkSharedTasksResponse`: `{tasks, deleted_task_ids, latest_seq}`. -/
structure BulkSharedTasksResponse where
  tasks : List BulkTaskPayload
  deleted_task_ids : List Uuid
  latest_seq : Option Int
  deriving Repr, DecidableEq

/-- `ShareConfig` fields used by the processor
(`crates/services/src/services/share/config.rs`):
`activity_page_limit = 200`, `bulk_sync_threshold = WS_BULK_SYNC_THRESHOLD = 500`. -/
structure ShareCfg where
  activity_page_limit : Nat
  bulk_sync_threshold : Nat
  deriving Repr, DecidableEq

/-- `WS_BULK_SYNC_THRESHOLD` from `crates/utils/src/ws.rs` line 21. -/
def WS_BULK_SYNC_THRESHOLD : Nat := 500

/-- `i64::saturating_sub`. -/
def i64SaturatingSub (a b : Int) : Int :=
  max (min (a - b) (2 ^ 63 - 1)) (-(2 ^ 63))

/-- `ActivityProcessor::bulk_sync` (`processor.rs` lines 227-306):
collect `keep_ids` and converted replacement rows from the snapshot;
`stale` = local rows of this project not kept, plus `deleted_task_ids`
not kept; in one transaction remove the stale rows, upsert every
replacement, and write the cursor when `latest_seq` is present. Returns
the new state and `latest_seq`. -/
def bulk_sync (db : LocalDb) (remote_project_id : Uuid)
    (resp : BulkSharedTasksResponse) : LocalDb × Option Int :=
  let latest_seq := resp.latest_seq
  let keep_ids := resp.tasks.map (fun p => p.task.id)
  let replacements := resp.tasks.map (fun p => convert_remote_task p.task p.user latest_seq)
  let staleLocal :=
    ((db.shared_tasks.filter (fun t => t.remote_project_id = remote_project_id)).map
      (fun t => t.id)).filter (fun i => ¬ keep_ids.contains i)
  let staleDeleted := resp.deleted_task_ids.filter (fun d => ¬ keep_ids.contains d)
  let stale := staleLocal ++ staleDeleted
  let afterRemove := removeTasks db.shared_tasks stale
  let afterUpsert := replacements.foldl upsertTask afterRemove
  let db' : LocalDb := { db with shared_tasks := afterUpsert }
  let db'' :=
    match latest_seq with
    | some seq => db'.setCursor remote_project_id seq
    | none => db'
  (db'', latest_seq)

/-- Applying one fetched activity page (`processor.rs` lines 88-100):
events for a different project are ignored; each remaining event is
processed and advances `last_seq`. -/
def applyPage (pid : Uuid) : LocalDb × Option Int → List ActivityEvent →
    LocalDb × Option Int
  | acc, [] => acc
  | (db, last), ev :: rest =>
    if ev.project_id ≠ pid then applyPage pid (db, last) rest
    else applyPage pid (process_event db ev, some ev.seq) rest

/-- The page loop of `catch_up_project` (`processor.rs` lines 73-105),
with fuel (`none` = fuel exhausted). Each round fetches a page after
`last_seq`; an empty page breaks; a page whose newest event satisfies
`newest.seq.saturating_sub(prev) > bulk_sync_threshold` (with a `Some`
baseline) triggers `bulk_sync` and continues; otherwise the page is
applied and a short page (`len < activity_page_limit`) breaks. -/
def catchUpProjectLoop (cfg : ShareCfg) (fetchActivity : Option Int → List ActivityEvent)
    (bulkResp : BulkSharedTasksResponse) (remote_project_id : Uuid) :
    Nat → LocalDb → Option Int → Option (LocalDb × Option Int)
  | 0, _, _ => none
  | fuel + 1, db, last_seq =>
    let events := fetchActivity last_seq
    if events.isEmpty then some (db, last_seq)
    else
      let tooFar : Bool :=
        match last_seq, events.getLast? with
        | some prev, some newest =>
            decide ((cfg.bulk_sync_threshold : Int) < i64SaturatingSub newest.seq prev)
        | _, _ => false
      if tooFar then
        let (db', seq') := bulk_sync db remote_project_id bulkResp
        catchUpProjectLoop cfg fetchActivity bulkResp remote_project_id fuel db' seq'
      else
        let (db', last') := applyPage remote_project_id (db, last_seq) events
        if events.length < cfg.activity_page_limit then some (db', last')
        else catchUpProjectLoop cfg fetchActivity bulkResp remote_project_id fuel db' last'

/-- `catch_up_project` (`processor.rs` lines 64-108): a `None` cursor
first performs a bulk sync, then the page loop runs. `fetchActivity`
models `RemoteClient::fetch_activity` with the configured page limit;
`bulkResp` models `fetch_bulk_snapshot` (the remote snapshot, stable
while catching up). -/
def catch_up_project (cfg : ShareCfg) (fetchActivity : Option Int → List ActivityEvent)
    (bulkResp : BulkSharedTasksResponse) (db : LocalDb) (remote_project_id : Uuid)
    (last_seq : Option Int) (fuel : Nat) : Option (LocalDb × Option Int) :=
  match last_seq with
  | none =>
    let (db', seq') := bulk_sync db remote_project_id bulkResp
    catchUpProjectLoop cfg fetchActivity bulkResp remote_project_id fuel db' seq'
  | some _ =>
    catchUpProjectLoop cfg fetchActivity bulkResp remote_project_id fuel db last_seq

/-- Concrete remote task used by the client-sync witness. -/
def wTask : RemoteSharedTask :=
  { id := 10, project_id := 7, title := "a", description := none, status := "todo",
    assignee_user_id := none, creator_user_id := none, version := 1 }

/-- Concrete stale local row used by the client-sync witness. -/
def wRow : SharedTaskRow :=
  { id := 12, remote_project_id := 7, title := "old", description := none,
    status := "todo", assignee_user_id := none, assignee_first_name := none,
    assignee_last_name := none, assignee_username := none, version := 1,
    last_event_seq := none }

/-- Concrete bulk snapshot used by the client-sync witness. -/
def wResp : BulkSharedTasksResponse :=
  { tasks := [{ task := wTask, user := none }], deleted_task_ids := [11],
    latest_seq := some 42 }

/-- Concrete local database used by the client-sync witness. -/
def wDb : LocalDb := { shared_tasks := [wRow], cursors := fun _ => none }

/-- The default share configuration (`ShareConfig::from_env`):
page limit 200, bulk threshold `WS_BULK_SYNC_THRESHOLD`. -/
def wCfg : ShareCfg :=
  { activity_page_limit := 200, bulk_sync_threshold := WS_BULK_SYNC_THRESHOLD }

/-- Concrete remote activity page used by the client-sync witness. -/
def wFetch : Option Int → List ActivityEvent := fun _ => [mkEvent 7 600]

/-! ## Theorems -/

/-- C7: for every `GET /v1/activity` request the effective limit is the
requested limit clamped to `[1, 500]` (`limit = 0` becomes 1, anything
above 500 becomes 500), and a request without a limit parameter uses the
default of 200. -/
theorem get_activity_limit_clamped :
    effective_limit none = 200 ∧
    (∀ l : Int, effective_limit (some l) = i64Clamp l 1 500) ∧
    effective_limit (some 0) = 1 ∧
    (∀ l : Int, 500 < l → effective_limit (some l) = 500) ∧
    (∀ l : Int, 1 ≤ l → l ≤ 500 → effective_limit (some l) = l) := by
  refine ⟨rfl, fun l => rfl, rfl, ?_, ?_⟩
  · intro l h
    simp only [effective_limit, i64Clamp, Option.getD, DEFAULT_ACTIVITY_MAX_LIMIT]
    omega
  · intro l h1 h2
    simp only [effective_limit, i64Clamp, Option.getD, DEFAULT_ACTIVITY_MAX_LIMIT]
    omega

/-- Witness for C7 at concrete limits 501 and 7. -/
theorem get_activity_limit_clamped_witness :
    effective_limit (some 501) = 500 ∧ effective_limit (some 7) = 7 :=
  ⟨get_activity_limit_clamped.2.2.2.1 501 (by norm_num),
   get_activity_limit_clamped.2.2.2.2 7 (by norm_num) (by norm_num)⟩

/-- C8: every minted token pair has an access token with audience
`"access"` and expiry exactly 120 seconds after its issued-at time, and a
refresh token with audience `"refresh"`, the freshly generated `jti`, and
expiry exactly 365 days after its issued-at time; decoding a token only
succeeds with the matching audience for its type. -/
theorem generate_tokens_claim :
    (∀ (now : Int) (jti sid uid : Uuid),
      (generate_tokens now jti sid uid).access_token.aud = "access" ∧
      (generate_tokens now jti sid uid).access_token.iat = now ∧
      (generate_tokens now jti sid uid).access_token.exp = now + 120 ∧
      (generate_tokens now jti sid uid).refresh_token.aud = "refresh" ∧
      (generate_tokens now jti sid uid).refresh_token.jti = jti ∧
      (generate_tokens now jti sid uid).refresh_token_id = jti ∧
      (generate_tokens now jti sid uid).refresh_token.iat = now ∧
      (generate_tokens now jti sid uid).refresh_token.exp = now + 365 * 86400) ∧
    (∀ (c : AccessTokenClaims) (now leeway : Int) (d : AccessTokenDetails),
      decode_access_token_with_leeway c now leeway = .ok d → c.aud = "access") ∧
    (∀ (c : RefreshTokenClaims) (now : Int) (d : RefreshTokenDetails),
      decode_refresh_token c now = .ok d → c.aud = "refresh") := by
  refine ⟨?_, ?_, ?_⟩
  · intro now jti sid uid
    exact ⟨rfl, rfl, rfl, rfl, rfl, rfl, rfl, rfl⟩
  · intro c now leeway d h
    unfold decode_access_token_with_leeway at h
    split at h
    · exact absurd h (by simp)
    · split at h
      · exact absurd h (by simp)
      · next hne => exact not_not.mp hne
  · intro c now d h
    unfold decode_refresh_token at h
    split at h
    · exact absurd h (by simp)
    · split at h
      · exact absurd h (by simp)
      · next hne => exact not_not.mp hne

/-- Witness for C8: the decode direction at a concrete claim set. -/
theorem generate_tokens_claim_witness :
    (generate_tokens 1000 7 3 4).access_token.exp = 1120 ∧
    ({ sub := 4, session_id := 3, iat := 1000, exp := 1120, aud := "access" } :
        AccessTokenClaims).aud = "access" := by
  refine ⟨(generate_tokens_claim.1 1000 7 3 4).2.2.1.trans (by norm_num), ?_⟩
  exact generate_tokens_claim.2.1
    { sub := 4, session_id := 3, iat := 1000, exp := 1120, aud := "access" } 1050 60
    { user_id := 4, session_id := 3, expires_at := 1120 } rfl

/-- C9: the session touch is idempotent within a day — it writes
`last_used_at = date_trunc('day', now)` only when `last_used_at` is null
or earlier than the current day, so a second touch on the same day leaves
the row unchanged. -/
theorem touch_idempotent_within_day (s : AuthSession) (t1 t2 : Int)
    (h : dateTruncDay t1 = dateTruncDay t2) :
    touch (touch s t1) t2 = touch s t1 := by
  cases hl : s.last_used_at with
  | none =>
      have e1 : touch s t1 = { s with last_used_at := some (dateTruncDay t1) } := by
        simp [touch, hl]
      rw [e1]
      simp [touch, h]
  | some t =>
      by_cases hc : t < dateTruncDay t1
      · have e1 : touch s t1 = { s with last_used_at := some (dateTruncDay t1) } := by
          simp [touch, hl, hc]
        rw [e1]
        simp [touch, h]
      · have e1 : touch s t1 = s := by
          simp [touch, hl, hc]
        have hc2 : ¬ t < dateTruncDay t2 := h ▸ hc
        rw [e1]
        simp [touch, hl, hc2]

/-- Witness for C9 at a concrete session touched twice on the same day. -/
theorem touch_idempotent_within_day_witness :
    touch (touch { id := 1, user_id := 2, session_secret_hash := none,
                   refresh_token_id := none, created_at := 0,
                   last_used_at := none, revoked_at := none } 100) 200 =
      touch { id := 1, user_id := 2, session_secret_hash := none,
              refresh_token_id := none, created_at := 0,
              last_used_at := none, revoked_at := none } 100 :=
  touch_idempotent_within_day _ 100 200 (by decide)

/-- C10: when the initial history fetch of the REPLAY phase fails, the
session sends no error frame and no history events: the trace is exactly
the LIVE loop run with `last_sent_seq` still equal to the client's
cursor. -/
theorem replay_fetch_failure_skips_history (store : List ActivityEvent) (pid : Uuid)
    (default_limit : Nat) (batch bulk : Int) (fuel : Nat) (cursor : Option Int)
    (inputs : List LiveInput) :
    session_handle store pid default_limit batch bulk fuel cursor false inputs =
      sessionLive store pid batch bulk fuel cursor inputs := rfl

/-- The watcher's delay sequence only depends on the current backoff
value, and follows the amended policy: double-capped-at-30 after every
wait, reset to the base delay on successful connection establishment. -/
theorem watcherDelays_eq_amended (trace : List AttemptOutcome) :
    ∀ b : Backoff, watcherDelays b trace = amendedDelays b.current trace := by
  induction trace with
  | nil => intro b; rfl
  | cons head rest ih =>
      intro b
      cases head with
      | connectFailed =>
          simp only [watcherDelays, amendedDelays, Backoff.wait]
          exact congrArg _ (ih _)
      | connected n =>
          simp only [watcherDelays, amendedDelays, Backoff.wait, Backoff.reset]
          exact congrArg _ (ih _)

/-- C6 counterexample: after a failed attempt (wait 1 s) and a successful
connection that delivers no event before closing, the code waits 1 s
(the reset happened on connect), while the claimed policy — doubling
unless a successful event resets — waits 2 s. -/
theorem watcher_backoff_counterexample :
    watcherDelays Backoff.init [.connectFailed, .connected 0] = [1, 1] ∧
    claimedDelays WS_BACKOFF_BASE_DELAY [.connectFailed, .connected 0] = [1, 2] ∧
    watcherDelays Backoff.init [.connectFailed, .connected 0] ≠
      claimedDelays WS_BACKOFF_BASE_DELAY [.connectFailed, .connected 0] := by
  refine ⟨rfl, rfl, ?_⟩
  decide

/-- C6 (amended): reconnect delays follow exponential backoff — first
wait 1 s, each subsequent wait double the previous one capped at 30 s —
and the backoff is reset to 1 s on every successful websocket
connection establishment (not on event receipt). -/
theorem watcher_backoff_amended (trace : List AttemptOutcome) :
    watcherDelays Backoff.init trace = amendedDelays WS_BACKOFF_BASE_DELAY trace :=
  watcherDelays_eq_amended trace Backoff.init

/-- An `Ok` item survives the subscriber filter exactly when it was
delivered and belongs to the subscribed project. -/
theorem subscribe_filter_ok_mem (pid : Uuid) (e : ActivityEvent) :
    ∀ items : List ShardItem,
      ShardItem.ok e ∈ subscribe_filter pid items ↔
        ShardItem.ok e ∈ items ∧ e.project_id = pid := by
  intro items
  induction items with
  | nil => simp [subscribe_filter]
  | cons head rest ih =>
      cases head with
      | ok e' =>
          by_cases hp : e'.project_id = pid
          · simp only [subscribe_filter, if_pos hp, List.mem_cons, ih]
            constructor
            · rintro (he | ⟨hm, hpe⟩)
              · refine ⟨Or.inl he, ?_⟩
                injection he with hh
                rw [hh]
                exact hp
              · exact ⟨Or.inr hm, hpe⟩
            · rintro ⟨he | hm, hpe⟩
              · exact Or.inl he
              · exact Or.inr ⟨hm, hpe⟩
          · simp only [subscribe_filter, if_neg hp, List.mem_cons, ih]
            constructor
            · rintro ⟨hm, hpe⟩
              exact ⟨Or.inr hm, hpe⟩
            · rintro ⟨he | hm, hpe⟩
              · exfalso
                injection he with hh
                rw [hh] at hpe
                exact hp hpe
              · exact ⟨hm, hpe⟩
      | lagged n =>
          simp only [subscribe_filter, List.mem_cons, ih]
          constructor
          · rintro (he | ⟨hm, hpe⟩)
            · cases he
            · exact ⟨Or.inr hm, hpe⟩
          · rintro ⟨he | hm, hpe⟩
            · cases he
            · exact Or.inr ⟨hm, hpe⟩

/-- Lag markers pass through the subscriber filter unchanged. -/
theorem subscribe_filter_lagged_mem (pid : Uuid) (n : Nat) :
    ∀ items : List ShardItem,
      ShardItem.lagged n ∈ subscribe_filter pid items ↔ ShardItem.lagged n ∈ items := by
  intro items
  induction items with
  | nil => simp [subscribe_filter]
  | cons head rest ih =>
      cases head with
      | ok e' =>
          by_cases hp : e'.project_id = pid
          · simp only [subscribe_filter, if_pos hp, List.mem_cons, ih]
          · simp only [subscribe_filter, if_neg hp, List.mem_cons, ih]
            constructor
            · exact Or.inr
            · rintro (he | hm)
              · cases he
              · exact hm
      | lagged m =>
          simp only [subscribe_filter, List.mem_cons, ih]

/-- The subscriber filter on a pure event stream is a project filter. -/
theorem subscribe_filter_map_ok (pid : Uuid) :
    ∀ xs : List ActivityEvent,
      subscribe_filter pid (xs.map .ok) =
        (xs.filter (fun e => e.project_id == pid)).map .ok := by
  intro xs
  induction xs with
  | nil => rfl
  | cons x rest ih =>
      by_cases hp : x.project_id = pid
      · simp [subscribe_filter, hp, ih, List.filter_cons]
      · simp [subscribe_filter, hp, ih, List.filter_cons]

/-- Filtering a shard's events down to the subscribed project recovers
exactly the project's published events: the project filter subsumes the
shard filter. -/
theorem shardItems_filter_project (sc : Nat) (hash : Uuid → Nat) (pid : Uuid) :
    ∀ published : List ActivityEvent,
      (shardItems sc hash published (shard_index sc hash pid)).filter
          (fun e => e.project_id == pid) =
        published.filter (fun e => e.project_id == pid) := by
  intro published
  induction published with
  | nil => rfl
  | cons e rest ih =>
      unfold shardItems at ih ⊢
      by_cases hp : e.project_id = pid
      · have hq : shard_index sc hash e.project_id = shard_index sc hash pid := by rw [hp]
        simp [List.filter_cons, hp, hq, ih]
      · by_cases hq : shard_index sc hash e.project_id = shard_index sc hash pid
        · simp [List.filter_cons, hp, hq, ih]
        · simp [List.filter_cons, hp, hq, ih]

/-- C5: the stream returned by `ActivityBroker::subscribe(p)` yields
`Ok(e)` iff `e` was delivered on `p`'s shard and `e.project_id = p`;
events of other projects sharing the shard are never yielded; `Lagged`
markers pass through; and a subscriber that keeps up with `p`'s shard
receives exactly the published events of `p`, in publish order. -/
theorem broker_subscribe_claim :
    (∀ (pid : Uuid) (items : List ShardItem) (e : ActivityEvent),
      ShardItem.ok e ∈ subscribe_filter pid items ↔
        ShardItem.ok e ∈ items ∧ e.project_id = pid) ∧
    (∀ (pid : Uuid) (items : List ShardItem) (n : Nat),
      ShardItem.lagged n ∈ subscribe_filter pid items ↔ ShardItem.lagged n ∈ items) ∧
    (∀ (sc : Nat) (hash : Uuid → Nat) (published : List ActivityEvent) (pid : Uuid),
      subscribe_filter pid
          ((shardItems sc hash published (shard_index sc hash pid)).map .ok) =
        (published.filter (fun e => e.project_id == pid)).map .ok) := by
  refine ⟨?_, ?_, ?_⟩
  · intro pid items e
    exact subscribe_filter_ok_mem pid e items
  · intro pid items n
    exact subscribe_filter_lagged_mem pid n items
  · intro sc hash published pid
    rw [subscribe_filter_map_ok, shardItems_filter_project]

/-- Every session of the user is revoked after `revoke_all_user_sessions`. -/
theorem revoke_all_user_sessions_revokes (db : AuthDb) (uid : Uuid) (now : Int) :
    ∀ s' ∈ (db.revoke_all_user_sessions uid now).sessions,
      s'.user_id = uid → s'.revoked_at ≠ none := by
  intro s' hs' hu
  simp only [AuthDb.revoke_all_user_sessions, List.mem_map] at hs'
  obtain ⟨s0, _, hmap⟩ := hs'
  by_cases hc : s0.user_id = uid ∧ s0.revoked_at = none
  · rw [if_pos hc] at hmap
    rw [← hmap]
    simp
  · rw [if_neg hc] at hmap
    subst hmap
    intro hnone
    exact hc ⟨hu, hnone⟩

/-- C1: a refresh call with a well-formed, unexpired token whose session
exists and is unrevoked, where the stored `refresh_token_id` differs from
the presented `jti`, or the `jti` is in the revoked set, or the atomic
rotation loses to a concurrent refresh, revokes all sessions of the user
and returns HTTP 401 `token_reuse_detected` with no new token pair. -/
theorem refresh_token_reuse_detected (db : AuthDb) (d : RefreshTokenDetails)
    (s : AuthSession) (freshJti : Uuid) (rotate : RotateOutcome) (now : Int)
    (hget : db.get d.session_id = some s)
    (hrev : s.revoked_at = none)
    (hreuse : s.refresh_token_id ≠ some d.refresh_token_id
      ∨ db.is_refresh_token_revoked d.refresh_token_id = true
      ∨ rotate = .reuseDetected) :
    (refresh_token db (.ok d) freshJti rotate now).response =
        .error .tokenReuseDetected ∧
    TokenRefreshError.into_response .tokenReuseDetected = (401, "token_reuse_detected") ∧
    (refresh_token db (.ok d) freshJti rotate now).db =
        db.revoke_all_user_sessions d.user_id now ∧
    (∀ s' ∈ (refresh_token db (.ok d) freshJti rotate now).db.sessions,
      s'.user_id = d.user_id → s'.revoked_at ≠ none) := by
  have hnotrev : ¬ s.revoked_at ≠ none := by simp [hrev]
  by_cases hcheck : s.refresh_token_id ≠ some d.refresh_token_id
      ∨ db.is_refresh_token_revoked d.refresh_token_id
  · have hbody : refresh_token db (.ok d) freshJti rotate now =
        { response := .error .tokenReuseDetected,
          db := db.revoke_all_user_sessions d.user_id now } := by
      simp only [refresh_token, hget, if_neg hnotrev, if_pos hcheck]
    rw [hbody]
    exact ⟨rfl, rfl, rfl, revoke_all_user_sessions_revokes db d.user_id now⟩
  · have hrot : rotate = .reuseDetected := by
      rcases hreuse with h1 | h2 | h3
      · exact absurd (Or.inl h1) hcheck
      · exact absurd (Or.inr (by simpa using h2)) hcheck
      · exact h3
    have hbody : refresh_token db (.ok d) freshJti rotate now =
        { response := .error .tokenReuseDetected,
          db := db.revoke_all_user_sessions d.user_id now } := by
      subst hrot
      simp only [refresh_token, hget, if_neg hnotrev, if_neg hcheck]
    rw [hbody]
    exact ⟨rfl, rfl, rfl, revoke_all_user_sessions_revokes db d.user_id now⟩

/-- Witness for C1: a session storing `jti = 5` presented with `jti = 6`. -/
theorem refresh_token_reuse_detected_witness :
    (refresh_token
        { sessions := [{ id := 1, user_id := 2, session_secret_hash := none,
                         refresh_token_id := some 5, created_at := 0,
                         last_used_at := none, revoked_at := none }],
          revoked_token_ids := [] }
        (.ok { user_id := 2, session_id := 1, refresh_token_id := 6 })
        9 .ok 1000).response = .error .tokenReuseDetected :=
  (refresh_token_reuse_detected
    { sessions := [{ id := 1, user_id := 2, session_secret_hash := none,
                     refresh_token_id := some 5, created_at := 0,
                     last_used_at := none, revoked_at := none }],
      revoked_token_ids := [] }
    { user_id := 2, session_id := 1, refresh_token_id := 6 }
    { id := 1, user_id := 2, session_secret_hash := none,
      refresh_token_id := some 5, created_at := 0,
      last_used_at := none, revoked_at := none }
    9 .ok 1000 (by decide) rfl (Or.inl (by decide))).1

/-- Chain extension: a lower bound on every element lets us prepend. -/
theorem chain'_lt_cons {a : Int} {l : List Int}
    (hl : List.Chain' (· < ·) l) (h : ∀ x ∈ l, a < x) :
    List.Chain' (· < ·) (a :: l) :=
  List.chain'_cons'.mpr ⟨fun y hy => h y (List.mem_of_mem_head? hy), hl⟩

/-- Chain concatenation when every left element is below every right one. -/
theorem chain'_lt_append {l₁ l₂ : List Int}
    (h₁ : List.Chain' (· < ·) l₁) (h₂ : List.Chain' (· < ·) l₂)
    (h : ∀ x ∈ l₁, ∀ y ∈ l₂, x < y) :
    List.Chain' (· < ·) (l₁ ++ l₂) :=
  List.chain'_append.mpr ⟨h₁, h₂, fun x hx y hy =>
    h x (List.mem_of_mem_getLast? hx) y (List.mem_of_mem_head? hy)⟩

/-- The page loop only appends events strictly between the entry
`current_seq` and the exit `current_seq`, in strictly increasing order,
and never lowers `current_seq`: the `seq ≤ current_seq` guard skips
everything at or below the position already sent. -/
theorem processPage_mono (target : Int) :
    ∀ (page sent : List ActivityEvent) (current cursor : Int),
      ∃ δ, (processPage target page sent current cursor).sentList = sent ++ δ ∧
        List.Chain' (· < ·) (δ.map ActivityEvent.seq) ∧
        (∀ e ∈ δ, current < e.seq ∧
          e.seq ≤ (processPage target page sent current cursor).currentVal) ∧
        current ≤ (processPage target page sent current cursor).currentVal := by
  intro page
  induction page with
  | nil =>
      intro sent current cursor
      exact ⟨[], by simp [processPage, PageResult.sentList], by simp, by simp,
        by simp [processPage, PageResult.currentVal]⟩
  | cons e rest ih =>
      intro sent current cursor
      by_cases h1 : e.seq ≤ current
      · have heq : processPage target (e :: rest) sent current cursor =
            processPage target rest sent current cursor := by
          simp [processPage, if_pos h1]
        rw [heq]
        exact ih sent current cursor
      · by_cases h2 : target < e.seq
        · have heq : processPage target (e :: rest) sent current cursor =
              .early sent current := by
            simp [processPage, if_neg h1, if_pos h2]
          refine ⟨[], ?_, by simp, by simp, ?_⟩
          · rw [heq]; simp [PageResult.sentList]
          · rw [heq]; simp [PageResult.currentVal]
        · have heq : processPage target (e :: rest) sent current cursor =
              processPage target rest (sent ++ [e]) e.seq e.seq := by
            simp [processPage, if_neg h1, if_neg h2]
          obtain ⟨δ', hs', hc', hb', hcur'⟩ := ih (sent ++ [e]) e.seq e.seq
          refine ⟨e :: δ', ?_, ?_, ?_, ?_⟩
          · rw [heq, hs']
            simp
          · refine chain'_lt_cons ?_ ?_
            · exact hc'
            · intro x hx
              simp only [List.mem_map] at hx
              obtain ⟨e', he', rfl⟩ := hx
              exact (hb' e' he').1
          · intro e' he'
            rw [heq]
            rcases List.mem_cons.mp he' with rfl | hmem
            · exact ⟨lt_of_not_le h1, hcur'⟩
            · exact ⟨lt_trans (lt_of_not_le h1) (hb' e' hmem).1, (hb' e' hmem).2⟩
          · rw [heq]
            exact le_trans (le_of_lt (lt_of_not_le h1)) hcur'

/-- The store catch-up only emits events above the entry baseline, in
strictly increasing order, and a successful exit value bounds them all. -/
theorem catchUpLoop_mono (store : List ActivityEvent) (pid : Uuid) (target : Int)
    (batch : Nat) :
    ∀ (fuel : Nat) (current cursor : Int) (sent : List ActivityEvent)
      (res : List ActivityEvent × Except CatchUpError Int),
      catchUpLoop store pid target batch fuel current cursor sent = some res →
      ∃ δ, res.1 = sent ++ δ ∧
        List.Chain' (· < ·) (δ.map ActivityEvent.seq) ∧
        (∀ e ∈ δ, current < e.seq) ∧
        (∀ v, res.2 = .ok v → current ≤ v ∧ ∀ e ∈ δ, e.seq ≤ v) := by
  intro fuel
  induction fuel with
  | zero => intro current cursor sent res h; cases h
  | succ fuel ih =>
      intro current cursor sent res h
      rw [catchUpLoop] at h
      by_cases hemp : (fetch_since store pid (some cursor) batch).isEmpty
      · rw [if_pos hemp] at h
        injection h with h
        subst h
        exact ⟨[], by simp, by simp, by simp, by intro v hv; cases hv⟩
      · rw [if_neg hemp] at h
        obtain ⟨δ₁, hs₁, hc₁, hb₁, hcur₁⟩ :=
          processPage_mono target (fetch_since store pid (some cursor) batch) sent
            current cursor
        cases hp : processPage target (fetch_since store pid (some cursor) batch)
            sent current cursor with
        | early sent' current' =>
            rw [hp] at h
            injection h with h
            subst h
            rw [hp] at hs₁ hb₁ hcur₁
            simp only [PageResult.sentList, PageResult.currentVal] at hs₁ hb₁ hcur₁
            refine ⟨δ₁, hs₁, hc₁, fun e he => (hb₁ e he).1, ?_⟩
            intro v hv
            injection hv with hv
            subst hv
            exact ⟨hcur₁, fun e he => (hb₁ e he).2⟩
        | done sent' current' cursor' =>
            rw [hp] at h
            dsimp only at h
            rw [hp] at hs₁ hb₁ hcur₁
            simp only [PageResult.sentList, PageResult.currentVal] at hs₁ hb₁ hcur₁
            by_cases hdone : target ≤ current'
            · rw [if_pos hdone] at h
              injection h with h
              subst h
              refine ⟨δ₁, hs₁, hc₁, fun e he => (hb₁ e he).1, ?_⟩
              intro v hv
              injection hv with hv
              subst hv
              exact ⟨hcur₁, fun e he => (hb₁ e he).2⟩
            · rw [if_neg hdone] at h
              obtain ⟨δ₂, hs₂, hc₂, hb₂, hok₂⟩ := ih current' cursor' sent' res h
              refine ⟨δ₁ ++ δ₂, ?_, ?_, ?_, ?_⟩
              · rw [hs₂, hs₁, List.append_assoc]
              · rw [List.map_append]
                refine chain'_lt_append hc₁ hc₂ ?_
                intro x hx y hy
                simp only [List.mem_map] at hx hy
                obtain ⟨ex, hex, rfl⟩ := hx
                obtain ⟨ey, hey, rfl⟩ := hy
                exact lt_of_le_of_lt (hb₁ ex hex).2 (hb₂ ey hey)
              · intro e he
                rcases List.mem_append.mp he with hmem | hmem
                · exact (hb₁ e hmem).1
                · exact lt_of_le_of_lt hcur₁ (hb₂ e hmem)
              · intro v hv
                obtain ⟨hcv, hbv⟩ := hok₂ v hv
                refine ⟨le_trans hcur₁ hcv, ?_⟩
                intro e he
                rcases List.mem_append.mp he with hmem | hmem
                · exact le_trans (hb₁ e hmem).2 hcv
                · exact hbv e hmem

/-- `activitySeqs` distributes over append. -/
theorem activitySeqs_append (a b : List ServerFrame) :
    activitySeqs (a ++ b) = activitySeqs a ++ activitySeqs b := by
  simp [activitySeqs]

/-- `activitySeqs` of a pure activity trace is the seq projection. -/
theorem activitySeqs_map_activity (l : List ActivityEvent) :
    activitySeqs (l.map .activity) = l.map ActivityEvent.seq := by
  induction l with
  | nil => rfl
  | cons e rest ih =>
      simp only [List.map_cons]
      rw [show activitySeqs (ServerFrame.activity e :: List.map ServerFrame.activity rest) =
            e.seq :: activitySeqs (List.map ServerFrame.activity rest) from rfl, ih]

/-- Frames produced by `activity_stream_catch_up` carry strictly
increasing seqs above the baseline; on resume the returned `last_sent`
dominates them all and never drops below the baseline. -/
theorem activity_stream_catch_up_mono (store : List ActivityEvent) (pid : Uuid)
    (prev batch bulk : Int) (d : Option ActivityEvent) (fuel : Nat) :
    (∀ frames v,
      activity_stream_catch_up store pid prev batch bulk d fuel = .resume frames v →
      List.Chain' (· < ·) (activitySeqs frames) ∧
      (∀ x ∈ activitySeqs frames, prev < x ∧ x ≤ v) ∧ prev ≤ v) ∧
    (∀ frames,
      activity_stream_catch_up store pid prev batch bulk d fuel = .terminate frames →
      List.Chain' (· < ·) (activitySeqs frames) ∧
      ∀ x ∈ activitySeqs frames, prev < x) := by
  have herr : activitySeqs [ServerFrame.errorMsg "activity backlog dropped"] = [] := rfl
  cases d with
  | none =>
      have hval : activity_stream_catch_up store pid prev batch bulk none fuel =
          .terminate [.errorMsg "activity backlog dropped"] := rfl
      rw [hval]
      constructor
      · intro frames v h
        cases h
      · intro frames h
        injection h with h
        subst h
        rw [herr]
        exact ⟨by simp, by simp⟩
  | some event =>
      by_cases hle : event.seq ≤ prev
      · have hval : activity_stream_catch_up store pid prev batch bulk (some event) fuel =
            .resume [] prev := by
          simp [activity_stream_catch_up, hle]
        rw [hval]
        constructor
        · intro frames v h
          injection h with h1 h2
          subst h1; subst h2
          exact ⟨by simp [activitySeqs], by simp [activitySeqs], le_refl prev⟩
        · intro frames h
          cases h
      · by_cases hbulk : max bulk 1 < event.seq - prev
        · have hval : activity_stream_catch_up store pid prev batch bulk (some event) fuel =
              .terminate [.errorMsg "activity backlog dropped"] := by
            simp [activity_stream_catch_up, hle, hbulk]
          rw [hval]
          constructor
          · intro frames v h
            cases h
          · intro frames h
            injection h with h
            subst h
            rw [herr]
            exact ⟨by simp, by simp⟩
        · cases hdb : catch_up_from_db store pid prev event.seq (max batch 1).toNat fuel with
          | none =>
              have hval : activity_stream_catch_up store pid prev batch bulk (some event) fuel =
                  .outOfFuel := by
                simp [activity_stream_catch_up, hle, hbulk, hdb]
              rw [hval]
              constructor
              · intro frames v h
                cases h
              · intro frames h
                cases h
          | some res =>
              obtain ⟨sent, r⟩ := res
              obtain ⟨δ, hδ, hc, hb, hok⟩ :=
                catchUpLoop_mono store pid event.seq (max batch 1).toNat fuel
                  prev prev [] (sent, r) hdb
              simp only [List.nil_append] at hδ
              subst hδ
              cases r with
              | ok v =>
                  have hval : activity_stream_catch_up store pid prev batch bulk
                      (some event) fuel = .resume (sent.map .activity) v := by
                    simp [activity_stream_catch_up, hle, hbulk, hdb]
                  rw [hval]
                  constructor
                  · intro frames v' h
                    injection h with h1 h2
                    subst h1; subst h2
                    obtain ⟨hpv, hbv⟩ := hok v rfl
                    rw [activitySeqs_map_activity]
                    refine ⟨hc, ?_, hpv⟩
                    intro x hx
                    simp only [List.mem_map] at hx
                    obtain ⟨e, he, rfl⟩ := hx
                    exact ⟨hb e he, hbv e he⟩
                  · intro frames h
                    cases h
              | error err =>
                  cases err with
                  | stale =>
                      have hval : activity_stream_catch_up store pid prev batch bulk
                          (some event) fuel = .terminate
                            (sent.map .activity ++ [.errorMsg "activity backlog dropped"]) := by
                        simp [activity_stream_catch_up, hle, hbulk, hdb]
                      rw [hval]
                      constructor
                      · intro frames v h
                        cases h
                      · intro frames h
                        injection h with h
                        subst h
                        rw [activitySeqs_append, activitySeqs_map_activity, herr,
                          List.append_nil]
                        refine ⟨hc, ?_⟩
                        intro x hx
                        simp only [List.mem_map] at hx
                        obtain ⟨e, he, rfl⟩ := hx
                        exact hb e he
                  | send =>
                      have hval : activity_stream_catch_up store pid prev batch bulk
                          (some event) fuel = .terminate (sent.map .activity) := by
                        simp [activity_stream_catch_up, hle, hbulk, hdb]
                      rw [hval]
                      constructor
                      · intro frames v h
                        cases h
                      · intro frames h
                        injection h with h
                        subst h
                        rw [activitySeqs_map_activity]
                        refine ⟨hc, ?_⟩
                        intro x hx
                        simp only [List.mem_map] at hx
                        obtain ⟨e, he, rfl⟩ := hx
                        exact hb e he

/-- The catch-up drain consumes at most the head of the remaining
delivery. -/
theorem drainTail_length_le (l : List LiveInput) : (drainTail l).length ≤ l.length := by
  rcases l with _ | ⟨hd, t⟩
  · simp [drainTail]
  · cases hd <;> simp [drainTail]

/-- LIVE-loop monotonicity: every frame trace the loop emits carries
strictly increasing seqs, all above the `last_sent_seq` baseline when one
exists. -/
theorem sessionLive_mono (store : List ActivityEvent) (pid : Uuid) (batch bulk : Int)
    (fuel : Nat) :
    ∀ (inputs : List LiveInput) (last : Option Int),
      List.Chain' (· < ·)
        (activitySeqs (sessionLive store pid batch bulk fuel last inputs)) ∧
      (∀ p, last = some p →
        ∀ x ∈ activitySeqs (sessionLive store pid batch bulk fuel last inputs), p < x) := by
  suffices H : ∀ (n : Nat) (inputs : List LiveInput), inputs.length ≤ n →
      ∀ last : Option Int,
        List.Chain' (· < ·)
          (activitySeqs (sessionLive store pid batch bulk fuel last inputs)) ∧
        (∀ p, last = some p →
          ∀ x ∈ activitySeqs (sessionLive store pid batch bulk fuel last inputs), p < x) by
    intro inputs last
    exact H inputs.length inputs le_rfl last
  intro n
  induction n with
  | zero =>
      intro inputs hlen last
      have hnil : inputs = [] := List.eq_nil_of_length_eq_zero (Nat.le_zero.mp hlen)
      subst hnil
      cases last <;> exact ⟨by simp [sessionLive, activitySeqs], by
        intro p hp x hx
        simp [sessionLive, activitySeqs] at hx⟩
  | succ n ih =>
      intro inputs hlen last
      have hres_mono : ∀ (prev seq : Int) (frames : List ServerFrame)
          (rest' : List LiveInput), rest'.length ≤ n →
          List.Chain' (· < ·) (activitySeqs frames) →
          (∀ x ∈ activitySeqs frames, prev < x ∧ x ≤ seq) → prev ≤ seq →
          List.Chain' (· < ·)
            (activitySeqs (frames ++ sessionLive store pid batch bulk fuel (some seq) rest')) ∧
          (∀ x ∈ activitySeqs
              (frames ++ sessionLive store pid batch bulk fuel (some seq) rest'), prev < x) := by
        intro prev seq frames rest' hlen' hcf hbf hps
        obtain ⟨hcl, hbl⟩ := ih rest' hlen' (some seq)
        rw [activitySeqs_append]
        constructor
        · exact chain'_lt_append hcf hcl
            (fun x hx y hy => lt_of_le_of_lt (hbf x hx).2 (hbl seq rfl y hy))
        · intro x hx
          rcases List.mem_append.mp hx with h | h
          · exact (hbf x h).1
          · exact lt_of_le_of_lt hps (hbl seq rfl x h)
      cases inputs with
      | nil =>
          cases last <;> exact ⟨by simp [sessionLive, activitySeqs], by
            intro p hp x hx
            simp [sessionLive, activitySeqs] at hx⟩
      | cons head rest =>
      have hlenr : rest.length ≤ n := by
        simp only [List.length_cons] at hlen
        omega
      have hlendt : (drainTail rest).length ≤ n :=
        le_trans (drainTail_length_le rest) hlenr
      have hcatch : ∀ prev : Int,
          (∀ tr : List ServerFrame,
            (match drainHead rest with
              | some d =>
                match activity_stream_catch_up store pid prev batch bulk (some d) fuel with
                | .resume frames seq =>
                    frames ++ sessionLive store pid batch bulk fuel (some seq) (drainTail rest)
                | .terminate frames => frames
                | .outOfFuel => []
              | none => [.errorMsg "activity backlog dropped"]) = tr →
            List.Chain' (· < ·) (activitySeqs tr) ∧
            ∀ x ∈ activitySeqs tr, prev < x) := by
        intro prev tr htr
        cases hd : drainHead rest with
        | none =>
            rw [hd] at htr
            subst htr
            exact ⟨by simp [activitySeqs], by
              intro x hx
              simp [activitySeqs] at hx⟩
        | some d =>
            rw [hd] at htr
            dsimp only at htr
            cases hcu : activity_stream_catch_up store pid prev batch bulk (some d) fuel with
            | resume frames seq =>
                rw [hcu] at htr
                subst htr
                obtain ⟨hcf, hbf, hps⟩ :=
                  (activity_stream_catch_up_mono store pid prev batch bulk
                    (some d) fuel).1 frames seq hcu
                exact hres_mono prev seq frames (drainTail rest) hlendt hcf hbf hps
            | terminate frames =>
                rw [hcu] at htr
                subst htr
                exact (activity_stream_catch_up_mono store pid prev batch bulk
                  (some d) fuel).2 frames hcu
            | outOfFuel =>
                rw [hcu] at htr
                subst htr
                exact ⟨by simp [activitySeqs], by
                  intro x hx
                  simp [activitySeqs] at hx⟩
      cases head with
      | streamClosed =>
          cases last <;> exact ⟨by simp [sessionLive, activitySeqs], by
            intro p hp x hx
            simp [sessionLive, activitySeqs] at hx⟩
      | event e =>
          cases last with
          | none =>
              have heq : sessionLive store pid batch bulk fuel none (.event e :: rest) =
                  .activity e :: sessionLive store pid batch bulk fuel (some e.seq) rest := by
                simp [sessionLive]
              rw [heq]
              obtain ⟨hcl, hbl⟩ := ih rest hlenr (some e.seq)
              have hcons : activitySeqs
                  (ServerFrame.activity e ::
                    sessionLive store pid batch bulk fuel (some e.seq) rest) =
                  e.seq :: activitySeqs
                    (sessionLive store pid batch bulk fuel (some e.seq) rest) := rfl
              rw [hcons]
              refine ⟨chain'_lt_cons hcl (hbl e.seq rfl), ?_⟩
              intro p hp
              cases hp
          | some prev =>
              by_cases h1 : e.seq ≤ prev
              · have heq : sessionLive store pid batch bulk fuel (some prev)
                    (.event e :: rest) =
                    sessionLive store pid batch bulk fuel (some prev) rest := by
                  rw [sessionLive]
                  rw [if_pos h1]
                rw [heq]
                obtain ⟨hcl, hbl⟩ := ih rest hlenr (some prev)
                refine ⟨hcl, ?_⟩
                intro p hp
                injection hp with hp
                subst hp
                exact hbl _ rfl
              · by_cases h2 : prev + 1 < e.seq
                · have heq : sessionLive store pid batch bulk fuel (some prev)
                      (.event e :: rest) =
                      (match drainHead rest with
                        | some d =>
                          match activity_stream_catch_up store pid prev batch bulk
                              (some d) fuel with
                          | .resume frames seq =>
                              frames ++ sessionLive store pid batch bulk fuel
                                (some seq) (drainTail rest)
                          | .terminate frames => frames
                          | .outOfFuel => []
                        | none => [.errorMsg "activity backlog dropped"]) := by
                    rw [sessionLive]
                    rw [if_neg h1, if_pos h2]
                  rw [heq]
                  obtain ⟨hch, hbd⟩ := hcatch prev _ rfl
                  refine ⟨hch, ?_⟩
                  intro p hp
                  injection hp with hp
                  subst hp
                  exact hbd
                · have heq : sessionLive store pid batch bulk fuel (some prev)
                      (.event e :: rest) =
                      .activity e ::
                        sessionLive store pid batch bulk fuel (some e.seq) rest := by
                    rw [sessionLive]
                    rw [if_neg h1, if_neg h2]
                  rw [heq]
                  obtain ⟨hcl, hbl⟩ := ih rest hlenr (some e.seq)
                  have hcons : activitySeqs
                      (ServerFrame.activity e ::
                        sessionLive store pid batch bulk fuel (some e.seq) rest) =
                      e.seq :: activitySeqs
                        (sessionLive store pid batch bulk fuel (some e.seq) rest) := rfl
                  rw [hcons]
                  refine ⟨chain'_lt_cons hcl (hbl e.seq rfl), ?_⟩
                  intro p hp
                  injection hp with hp
                  subst hp
                  intro x hx
                  rcases List.mem_cons.mp hx with rfl | hx'
                  · omega
                  · exact lt_trans (by omega) (hbl e.seq rfl x hx')
      | lagged m =>
          cases last with
          | none =>
              have heq : sessionLive store pid batch bulk fuel none (.lagged m :: rest) =
                  [.errorMsg "activity backlog dropped"] := by
                simp [sessionLive]
              rw [heq]
              exact ⟨by simp [activitySeqs], by
                intro p hp x hx
                cases hp⟩
          | some prev =>
              have heq : sessionLive store pid batch bulk fuel (some prev)
                  (.lagged m :: rest) =
                  (match drainHead rest with
                    | some d =>
                      match activity_stream_catch_up store pid prev batch bulk
                          (some d) fuel with
                      | .resume frames seq =>
                          frames ++ sessionLive store pid batch bulk fuel
                            (some seq) (drainTail rest)
                      | .terminate frames => frames
                      | .outOfFuel => []
                    | none => [.errorMsg "activity backlog dropped"]) := by
                rw [sessionLive]
              rw [heq]
              obtain ⟨hch, hbd⟩ := hcatch prev _ rfl
              refine ⟨hch, ?_⟩
              intro p hp
              injection hp with hp
              subst hp
              exact hbd

/-- C2: on one websocket the emitted `seq` values are strictly
increasing: the LIVE loop skips any broker event with `seq ≤ last_sent`,
the store catch-up skips any fetched event at or below the current sent
position, and the whole frame trace of a session — replay, live and
catch-up frames together — carries strictly increasing seqs (the store
list is kept in ascending `seq` order, the `ORDER BY` of `fetch_since`). -/
theorem ws_session_seq_strictly_increasing
    (store : List ActivityEvent) (pid : Uuid) (default_limit : Nat) (batch bulk : Int)
    (fuel : Nat) (cursor : Option Int) (fetchOk : Bool) (inputs : List LiveInput)
    (hsorted : List.Pairwise (fun a b => a.seq < b.seq) store) :
    (∀ (prev : Int) (e : ActivityEvent) (rest : List LiveInput), e.seq ≤ prev →
      sessionLive store pid batch bulk fuel (some prev) (.event e :: rest) =
        sessionLive store pid batch bulk fuel (some prev) rest) ∧
    (∀ (target : Int) (page sent : List ActivityEvent) (current cur : Int)
        (e : ActivityEvent), e.seq ≤ current →
      processPage target (e :: page) sent current cur =
        processPage target page sent current cur) ∧
    List.Chain' (· < ·)
      (activitySeqs
        (session_handle store pid default_limit batch bulk fuel cursor fetchOk inputs)) := by
  refine ⟨?_, ?_, ?_⟩
  · intro prev e rest h
    rw [sessionLive]
    rw [if_pos h]
  · intro target page sent current cur e h
    simp [processPage, if_pos h]
  · cases fetchOk with
    | false =>
        have heq : session_handle store pid default_limit batch bulk fuel cursor
            false inputs = sessionLive store pid batch bulk fuel cursor inputs := rfl
        rw [heq]
        exact (sessionLive_mono store pid batch bulk fuel inputs cursor).1
    | true =>
        have heq : session_handle store pid default_limit batch bulk fuel cursor
            true inputs =
            replayFrames (fetch_since store pid cursor default_limit) ++
              sessionLive store pid batch bulk fuel
                (replayLast cursor (fetch_since store pid cursor default_limit)) inputs := rfl
        rw [heq]
        have hpair : List.Pairwise (fun a b => a.seq < b.seq)
            (fetch_since store pid cursor default_limit) :=
          List.Pairwise.sublist (List.take_sublist _ _) (hsorted.filter _)
        have hchainRep : List.Chain' (· < ·)
            ((fetch_since store pid cursor default_limit).map ActivityEvent.seq) := by
          rw [List.chain'_iff_pairwise]
          exact (List.pairwise_map).mpr hpair
        obtain ⟨hlc, hlb⟩ := sessionLive_mono store pid batch bulk fuel inputs
          (replayLast cursor (fetch_since store pid cursor default_limit))
        rw [activitySeqs_append]
        have hrf : activitySeqs (replayFrames (fetch_since store pid cursor default_limit)) =
            (fetch_since store pid cursor default_limit).map ActivityEvent.seq :=
          activitySeqs_map_activity _
        rw [hrf]
        refine List.chain'_append.mpr ⟨hchainRep, hlc, ?_⟩
        intro x hx y hy
        rw [List.getLast?_map] at hx
        obtain ⟨e, he, hex⟩ := Option.map_eq_some'.mp hx
        have hrl : replayLast cursor (fetch_since store pid cursor default_limit) =
            some e.seq := by
          simp [replayLast, he]
        rw [← hex]
        exact hlb e.seq hrl y (List.mem_of_mem_head? hy)

/-- Witness for C2: a sorted two-event store, no client cursor, replay
succeeding, one live event. -/
theorem ws_session_seq_strictly_increasing_witness :
    List.Chain' (· < ·)
      (activitySeqs
        (session_handle [mkEvent 0 1, mkEvent 0 2] 0 200 100 500 4 none true
          [LiveInput.event (mkEvent 0 3)])) :=
  (ws_session_seq_strictly_increasing [mkEvent 0 1, mkEvent 0 2] 0 200 100 500 4 none true
    [LiveInput.event (mkEvent 0 3)] (by decide)).2.2

/-- Seq of a synthetic event. -/
theorem mkEvent_seq (pid : Uuid) (x : Int) : (mkEvent pid x).seq = x := rfl

/-- Length of a consecutive-event run. -/
theorem intSeqEvents_length (pid : Uuid) :
    ∀ (k : Nat) (s : Int), (intSeqEvents pid s k).length = k := by
  intro k
  induction k with
  | zero => intro s; rfl
  | succ k ih => intro s; simp [intSeqEvents, ih]

/-- Splitting a consecutive-event run. -/
theorem intSeqEvents_append (pid : Uuid) :
    ∀ (a : Nat) (s : Int) (b : Nat),
      intSeqEvents pid s (a + b) = intSeqEvents pid s a ++ intSeqEvents pid (s + a) b := by
  intro a
  induction a with
  | zero =>
      intro s b
      simp [intSeqEvents]
  | succ a ih =>
      intro s b
      have h1 : a + 1 + b = (a + b) + 1 := by omega
      rw [h1]
      show mkEvent pid s :: intSeqEvents pid (s + 1) (a + b) = _
      rw [ih (s + 1) b]
      have h2 : s + 1 + (a : Int) = s + ((a : Nat) + 1 : Nat) := by push_cast; ring
      rw [h2]
      rfl

/-- Filtering a consecutive-event run by `seq > c` (the `fetch_since`
predicate for its own project) keeps the suffix above `c`. -/
theorem intSeqEvents_filter (pid : Uuid) (c : Int) :
    ∀ (k : Nat) (s : Int),
      (intSeqEvents pid s k).filter
          (fun e => e.project_id == pid && afterOk (some c) e.seq) =
        intSeqEvents pid (max s (c + 1)) (k - (c + 1 - s).toNat) := by
  intro k
  induction k with
  | zero => intro s; simp [intSeqEvents]
  | succ k ih =>
      intro s
      by_cases hcs : c < s
      · have hpred : ((mkEvent pid s).project_id == pid &&
            afterOk (some c) (mkEvent pid s).seq) = true := by
          simp [mkEvent, afterOk, hcs]
        rw [show intSeqEvents pid s (k + 1) =
              mkEvent pid s :: intSeqEvents pid (s + 1) k from rfl]
        rw [List.filter_cons, if_pos hpred, ih (s + 1)]
        have e1 : max (s + 1) (c + 1) = s + 1 := by omega
        have e2 : (c + 1 - (s + 1)).toNat = 0 := by omega
        have e3 : max s (c + 1) = s := by omega
        have e4 : (c + 1 - s).toNat = 0 := by omega
        rw [e1, e2, e3, e4]
        rfl
      · have hpred : ((mkEvent pid s).project_id == pid &&
            afterOk (some c) (mkEvent pid s).seq) = false := by
          simp [mkEvent, afterOk, hcs]
        rw [show intSeqEvents pid s (k + 1) =
              mkEvent pid s :: intSeqEvents pid (s + 1) k from rfl]
        rw [List.filter_cons, if_neg (by simp [hpred]), ih (s + 1)]
        have e1 : max (s + 1) (c + 1) = max s (c + 1) := by omega
        have e2 : k - (c + 1 - (s + 1)).toNat = (k + 1) - (c + 1 - s).toNat := by omega
        rw [e1, e2]

/-- Taking a prefix of a consecutive-event run. -/
theorem intSeqEvents_take (pid : Uuid) :
    ∀ (k b : Nat) (s : Int), (intSeqEvents pid s k).take b = intSeqEvents pid s (min k b) := by
  intro k
  induction k with
  | zero => intro b s; simp [intSeqEvents]
  | succ k ih =>
      intro b s
      cases b with
      | zero => simp [intSeqEvents]
      | succ b =>
          rw [show intSeqEvents pid s (k + 1) =
                mkEvent pid s :: intSeqEvents pid (s + 1) k from rfl]
          rw [List.take_succ_cons, ih b (s + 1)]
          have e1 : min (k + 1) (b + 1) = min k b + 1 := by omega
          rw [e1]
          rfl

/-- `fetch_since` over the gap-free store returns exactly the next
`min (n - c, batch)` events after the cursor. -/
theorem fetch_since_contig (pid : Uuid) (n : Nat) (c : Int) (b : Nat) (hc : 0 ≤ c) :
    fetch_since (contigStore pid n) pid (some c) b =
      intSeqEvents pid (c + 1) (min (n - c.toNat) b) := by
  unfold fetch_since contigStore
  rw [intSeqEvents_filter pid c n 1]
  have e1 : max 1 (c + 1) = c + 1 := by omega
  have e2 : (c + 1 - 1).toNat = c.toNat := by omega
  rw [e1, e2, intSeqEvents_take]

/-- The page loop sends a whole in-range page and advances to its end. -/
theorem processPage_contig_done (pid : Uuid) (target : Int) :
    ∀ (k : Nat) (c cursor : Int) (sent : List ActivityEvent),
      0 < k → c + k ≤ target →
      processPage target (intSeqEvents pid (c + 1) k) sent c cursor =
        .done (sent ++ intSeqEvents pid (c + 1) k) (c + k) (c + k) := by
  intro k
  induction k with
  | zero => intro c cursor sent h0 _; omega
  | succ k ih =>
      intro c cursor sent _ hle
      rw [show intSeqEvents pid (c + 1) (k + 1) =
            mkEvent pid (c + 1) :: intSeqEvents pid (c + 1 + 1) k from rfl]
      have hnle : ¬ (mkEvent pid (c + 1)).seq ≤ c := by simp [mkEvent]
      have hntg : ¬ target < (mkEvent pid (c + 1)).seq := by
        simp only [mkEvent_seq]
        push_cast at hle
        omega
      rw [show processPage target
            (mkEvent pid (c + 1) :: intSeqEvents pid (c + 1 + 1) k) sent c cursor =
          processPage target (intSeqEvents pid (c + 1 + 1) k)
            (sent ++ [mkEvent pid (c + 1)]) (mkEvent pid (c + 1)).seq
            (mkEvent pid (c + 1)).seq from by
        rw [processPage]
        rw [if_neg hnle, if_neg hntg]]
      cases Nat.eq_zero_or_pos k with
      | inl hk0 =>
          subst hk0
          rw [show intSeqEvents pid (c + 1 + 1) 0 = [] from rfl]
          rw [processPage]
          simp only [mkEvent_seq]
          have : c + ((0 : Nat) + 1 : Nat) = c + 1 := by push_cast; ring
          rw [this]
      | inr hkpos =>
          simp only [mkEvent_seq]
          rw [ih (c + 1) (c + 1) (sent ++ [mkEvent pid (c + 1)]) hkpos (by push_cast at hle ⊢; omega)]
          have e1 : sent ++ [mkEvent pid (c + 1)] ++ intSeqEvents pid (c + 1 + 1) k =
              sent ++ intSeqEvents pid (c + 1) (k + 1) := by
            rw [List.append_assoc]
            rfl
          have e2 : c + 1 + (k : Int) = c + ((k : Nat) + 1 : Nat) := by push_cast; ring
          rw [e1, e2]
          rfl

/-- The page loop stops exactly at `target` when the page overshoots it:
events past `target` trigger the early return with `current = target`. -/
theorem processPage_contig_early (pid : Uuid) (target : Int) :
    ∀ (k : Nat) (c cursor : Int) (sent : List ActivityEvent),
      c < target → target < c + k →
      processPage target (intSeqEvents pid (c + 1) k) sent c cursor =
        .early (sent ++ intSeqEvents pid (c + 1) (target - c).toNat) target := by
  intro k
  induction k with
  | zero => intro c cursor sent h1 h2; omega
  | succ k ih =>
      intro c cursor sent h1 h2
      rw [show intSeqEvents pid (c + 1) (k + 1) =
            mkEvent pid (c + 1) :: intSeqEvents pid (c + 1 + 1) k from rfl]
      have hnle : ¬ (mkEvent pid (c + 1)).seq ≤ c := by simp [mkEvent]
      have hntg : ¬ target < (mkEvent pid (c + 1)).seq := by
        simp only [mkEvent_seq]
        omega
      rw [show processPage target
            (mkEvent pid (c + 1) :: intSeqEvents pid (c + 1 + 1) k) sent c cursor =
          processPage target (intSeqEvents pid (c + 1 + 1) k)
            (sent ++ [mkEvent pid (c + 1)]) (mkEvent pid (c + 1)).seq
            (mkEvent pid (c + 1)).seq from by
        rw [processPage]
        rw [if_neg hnle, if_neg hntg]]
      simp only [mkEvent_seq]
      by_cases heq : target = c + 1
      · subst heq
        have hk : 0 < k := by push_cast at h2; omega
        obtain ⟨k', rfl⟩ : ∃ k', k = k' + 1 := ⟨k - 1, by omega⟩
        rw [show intSeqEvents pid (c + 1 + 1) (k' + 1) =
              mkEvent pid (c + 1 + 1) :: intSeqEvents pid (c + 1 + 1 + 1) k' from rfl]
        rw [processPage]
        have ha : ¬ (mkEvent pid (c + 1 + 1)).seq ≤ c + 1 := by simp [mkEvent]
        have hb : c + 1 < (mkEvent pid (c + 1 + 1)).seq := by simp [mkEvent]
        rw [if_neg ha, if_pos hb]
        have e1 : (c + 1 - c).toNat = 1 := by omega
        rw [e1]
        rfl
      · rw [ih (c + 1) (c + 1) (sent ++ [mkEvent pid (c + 1)]) (by omega)
            (by push_cast at h2 ⊢; omega)]
        have e1 : (target - c).toNat = (target - (c + 1)).toNat + 1 := by omega
        rw [e1, show intSeqEvents pid (c + 1) ((target - (c + 1)).toNat + 1) =
              mkEvent pid (c + 1) :: intSeqEvents pid (c + 1 + 1) (target - (c + 1)).toNat
            from rfl]
        rw [List.append_assoc]
        rfl

/-- Over the gap-free store, the store catch-up loop reaches exactly
`target_seq`, sending the events `(c, target]`, given fuel for the pages
it needs. -/
theorem catchUpLoop_contig (pid : Uuid) (n : Nat) (target : Int) (batch : Nat)
    (hb : 0 < batch) (htn : target ≤ (n : Int)) :
    ∀ (fuel : Nat) (c : Int) (sent : List ActivityEvent),
      0 ≤ c → c < target → (target - c).toNat ≤ fuel →
      catchUpLoop (contigStore pid n) pid target batch fuel c c sent =
        some (sent ++ intSeqEvents pid (c + 1) (target - c).toNat, .ok target) := by
  intro fuel
  induction fuel with
  | zero =>
      intro c sent hc hct hfuel
      omega
  | succ fuel ih =>
      intro c sent hc hct hfuel
      have hfetch := fetch_since_contig pid n c batch hc
      have hcn : c.toNat < n := by omega
      have hkpos : 0 < min (n - c.toNat) batch := by omega
      obtain ⟨k', hk'⟩ : ∃ k', min (n - c.toNat) batch = k' + 1 :=
        ⟨min (n - c.toNat) batch - 1, by omega⟩
      simp only [catchUpLoop]
      rw [hfetch, hk']
      rw [if_neg (by
        rw [show intSeqEvents pid (c + 1) (k' + 1) =
              mkEvent pid (c + 1) :: intSeqEvents pid (c + 1 + 1) k' from rfl]
        simp)]
      by_cases hcover : target < c + ((k' : Nat) + 1 : Nat)
      · rw [processPage_contig_early pid target (k' + 1) c c sent hct hcover]
      · push_neg at hcover
        rw [processPage_contig_done pid target (k' + 1) c c sent (by omega) hcover]
        by_cases hdone : target ≤ c + ((k' : Nat) + 1 : Nat)
        · have hteq : c + ((k' : Nat) + 1 : Nat) = target := le_antisymm hcover hdone
          rw [show (match PageResult.done (sent ++ intSeqEvents pid (c + 1) (k' + 1))
                (c + ((k' : Nat) + 1 : Nat)) (c + ((k' : Nat) + 1 : Nat)) with
              | PageResult.early sent' current' => some (sent', Except.ok current')
              | PageResult.done sent' current' cursor' =>
                if target ≤ current' then some (sent', Except.ok current')
                else catchUpLoop (contigStore pid n) pid target batch fuel
                  current' cursor' sent') =
              (if target ≤ c + ((k' : Nat) + 1 : Nat) then
                some (sent ++ intSeqEvents pid (c + 1) (k' + 1),
                  Except.ok (c + ((k' : Nat) + 1 : Nat)))
              else catchUpLoop (contigStore pid n) pid target batch fuel
                (c + ((k' : Nat) + 1 : Nat)) (c + ((k' : Nat) + 1 : Nat))
                (sent ++ intSeqEvents pid (c + 1) (k' + 1))) from rfl]
          rw [if_pos hdone]
          have hkeq : (target - c).toNat = k' + 1 := by omega
          rw [hkeq, hteq]
        · rw [show (match PageResult.done (sent ++ intSeqEvents pid (c + 1) (k' + 1))
                (c + ((k' : Nat) + 1 : Nat)) (c + ((k' : Nat) + 1 : Nat)) with
              | PageResult.early sent' current' => some (sent', Except.ok current')
              | PageResult.done sent' current' cursor' =>
                if target ≤ current' then some (sent', Except.ok current')
                else catchUpLoop (contigStore pid n) pid target batch fuel
                  current' cursor' sent') =
              (if target ≤ c + ((k' : Nat) + 1 : Nat) then
                some (sent ++ intSeqEvents pid (c + 1) (k' + 1),
                  Except.ok (c + ((k' : Nat) + 1 : Nat)))
              else catchUpLoop (contigStore pid n) pid target batch fuel
                (c + ((k' : Nat) + 1 : Nat)) (c + ((k' : Nat) + 1 : Nat))
                (sent ++ intSeqEvents pid (c + 1) (k' + 1))) from rfl]
          rw [if_neg hdone]
          push_neg at hdone
          rw [ih (c + ((k' : Nat) + 1 : Nat)) (sent ++ intSeqEvents pid (c + 1) (k' + 1))
            (by positivity) hdone (by omega)]
          have hsplit : (target - c).toNat = (k' + 1) + (target - (c + ((k' : Nat) + 1 : Nat))).toNat := by
            omega
          rw [hsplit, intSeqEvents_append pid (k' + 1) (c + 1)
            ((target - (c + ((k' : Nat) + 1 : Nat))).toNat)]
          rw [List.append_assoc]
          have hcast : c + 1 + ((k' : Nat) + 1 : Nat) = c + ((k' : Nat) + 1 : Nat) + 1 := by
            push_cast
            ring
          rw [hcast]

/-- C3: with the drained live event establishing `target_seq`: if
`target_seq − last_sent > 500` the session sends the "activity backlog
dropped" error frame and terminates without consulting the store (the
result is the same for every store); if the first store page is empty
before reaching `target_seq` it sends the same frame and terminates;
over a gap-free store with `target_seq − last_sent ≤ 500` it resumes
LIVE having sent exactly `(last_sent, target_seq]`, so
`last_sent ≥ target_seq`; and a drained target at or below `last_sent`
resumes immediately with `last_sent` unchanged. -/
theorem ws_catch_up_claim :
    (∀ (store : List ActivityEvent) (pid : Uuid) (prev batch : Int)
        (d : ActivityEvent) (fuel : Nat),
      (WS_BULK_SYNC_THRESHOLD : Int) < d.seq - prev →
      activity_stream_catch_up store pid prev batch
          (WS_BULK_SYNC_THRESHOLD : Int) (some d) fuel =
        .terminate [.errorMsg "activity backlog dropped"]) ∧
    (∀ (store : List ActivityEvent) (pid : Uuid) (prev batch : Int)
        (d : ActivityEvent) (fuel : Nat),
      prev < d.seq → d.seq - prev ≤ (WS_BULK_SYNC_THRESHOLD : Int) →
      fetch_since store pid (some prev) (max batch 1).toNat = [] →
      activity_stream_catch_up store pid prev batch
          (WS_BULK_SYNC_THRESHOLD : Int) (some d) (fuel + 1) =
        .terminate [.errorMsg "activity backlog dropped"]) ∧
    (∀ (pid : Uuid) (n : Nat) (prev batch : Int) (d : ActivityEvent) (fuel : Nat),
      0 ≤ prev → prev < d.seq → d.seq - prev ≤ (WS_BULK_SYNC_THRESHOLD : Int) →
      d.seq ≤ (n : Int) → (d.seq - prev).toNat ≤ fuel →
      activity_stream_catch_up (contigStore pid n) pid prev batch
          (WS_BULK_SYNC_THRESHOLD : Int) (some d) fuel =
        .resume ((intSeqEvents pid (prev + 1) (d.seq - prev).toNat).map .activity) d.seq) ∧
    (∀ (store : List ActivityEvent) (pid : Uuid) (prev batch : Int)
        (d : ActivityEvent) (fuel : Nat),
      d.seq ≤ prev →
      activity_stream_catch_up store pid prev batch
          (WS_BULK_SYNC_THRESHOLD : Int) (some d) fuel = .resume [] prev) := by
  have hmax : max (WS_BULK_SYNC_THRESHOLD : Int) 1 = 500 := by
    simp [WS_BULK_SYNC_THRESHOLD]
  refine ⟨?_, ?_, ?_, ?_⟩
  · intro store pid prev batch d fuel h
    have hth : (500 : Int) < d.seq - prev := by
      simpa [WS_BULK_SYNC_THRESHOLD] using h
    have h1 : ¬ d.seq ≤ prev := by omega
    have h2 : max (WS_BULK_SYNC_THRESHOLD : Int) 1 < d.seq - prev := by omega
    simp [activity_stream_catch_up, h1, h2]
  · intro store pid prev batch d fuel hlt hle hfe
    have hle' : d.seq - prev ≤ 500 := by
      simpa [WS_BULK_SYNC_THRESHOLD] using hle
    have h1 : ¬ d.seq ≤ prev := by omega
    have h2 : ¬ max (WS_BULK_SYNC_THRESHOLD : Int) 1 < d.seq - prev := by omega
    have hdb : catch_up_from_db store pid prev d.seq (max batch 1).toNat (fuel + 1) =
        some ([], .error .stale) := by
      unfold catch_up_from_db
      simp only [catchUpLoop]
      rw [hfe]
      rfl
    simp [activity_stream_catch_up, h1, h2, hdb]
  · intro pid n prev batch d fuel h0 hlt hle hn hfuel
    have hle' : d.seq - prev ≤ 500 := by
      simpa [WS_BULK_SYNC_THRESHOLD] using hle
    have h1 : ¬ d.seq ≤ prev := by omega
    have h2 : ¬ max (WS_BULK_SYNC_THRESHOLD : Int) 1 < d.seq - prev := by omega
    have hb1 : (1 : Int) ≤ max batch 1 := le_max_right _ _
    have hb : 0 < (max batch 1).toNat := by omega
    have hdb : catch_up_from_db (contigStore pid n) pid prev d.seq
        (max batch 1).toNat fuel =
        some (intSeqEvents pid (prev + 1) (d.seq - prev).toNat, .ok d.seq) := by
      unfold catch_up_from_db
      have := catchUpLoop_contig pid n d.seq (max batch 1).toNat hb hn fuel prev []
        h0 hlt hfuel
      simpa using this
    simp [activity_stream_catch_up, h1, h2, hdb]
  · intro store pid prev batch d fuel h
    simp [activity_stream_catch_up, h]

/-- Witness for C3: backlog of 501 terminates without a store; a backlog
of 3 over the gap-free five-event store replays `1..3` and resumes. -/
theorem ws_catch_up_claim_witness :
    activity_stream_catch_up [] 0 0 100 (WS_BULK_SYNC_THRESHOLD : Int)
        (some (mkEvent 0 501)) 1 = .terminate [.errorMsg "activity backlog dropped"] ∧
    activity_stream_catch_up (contigStore 0 5) 0 0 100 (WS_BULK_SYNC_THRESHOLD : Int)
        (some (mkEvent 0 3)) 3 =
      .resume ((intSeqEvents 0 (0 + 1) ((mkEvent 0 3).seq - 0).toNat).map .activity)
        (mkEvent 0 3).seq :=
  ⟨ws_catch_up_claim.1 [] 0 0 100 (mkEvent 0 501) 1 (by decide),
   ws_catch_up_claim.2.2.1 0 5 0 100 (mkEvent 0 3) 3 (by decide) (by decide)
     (by decide) (by decide) (by decide)⟩

/-- Primary-key lookup on a cons cell. -/
theorem tasksFind_cons (t : SharedTaskRow) (ts : List SharedTaskRow) (i : Uuid) :
    tasksFind (t :: ts) i = if t.id = i then some t else tasksFind ts i := by
  by_cases h : t.id = i <;> simp [tasksFind, List.find?, h]

/-- `SharedTask::upsert` replaces the row with the key or appends it;
lookups on other keys are untouched. -/
theorem tasksFind_upsert :
    ∀ (ts : List SharedTaskRow) (r : SharedTaskRow) (i : Uuid),
      tasksFind (upsertTask ts r) i = if i = r.id then some r else tasksFind ts i := by
  intro ts
  induction ts with
  | nil =>
      intro r i
      rw [show upsertTask [] r = [r] from rfl, tasksFind_cons]
      by_cases h : i = r.id
      · rw [if_pos h.symm, if_pos h]
      · rw [if_neg (fun hr => h hr.symm), if_neg h]
  | cons t rest ih =>
      intro r i
      by_cases ht : t.id = r.id
      · rw [show upsertTask (t :: rest) r = r :: rest from by
          rw [upsertTask]; rw [if_pos ht]]
        rw [tasksFind_cons, tasksFind_cons]
        by_cases h : i = r.id
        · rw [if_pos h.symm, if_pos h]
        · rw [if_neg (fun hr => h hr.symm), if_neg h,
            if_neg (fun hti => h (ht ▸ hti).symm)]
      · rw [show upsertTask (t :: rest) r = t :: upsertTask rest r from by
          rw [upsertTask]; rw [if_neg ht]]
        rw [tasksFind_cons, tasksFind_cons, ih]
        by_cases hti : t.id = i
        · rw [if_pos hti, if_neg (fun h => ht (hti.trans h)), if_pos hti]
        · rw [if_neg hti, if_neg hti]

/-- Upserting rows with other keys leaves a lookup untouched. -/
theorem tasksFind_foldl_upsert_not_mem :
    ∀ (rs ts : List SharedTaskRow) (i : Uuid),
      i ∉ rs.map (fun r => r.id) →
      tasksFind (rs.foldl upsertTask ts) i = tasksFind ts i := by
  intro rs
  induction rs with
  | nil => intro ts i _; rfl
  | cons r rest ih =>
      intro ts i hmem
      rw [List.foldl_cons, ih (upsertTask ts r) i (by
        intro hc
        exact hmem (by simp [List.mem_cons] at hc ⊢; exact Or.inr hc))]
      rw [tasksFind_upsert, if_neg (by
        intro hc
        exact hmem (by simp [hc]))]

/-- Each upserted row is found afterwards, given distinct keys. -/
theorem tasksFind_foldl_upsert_mem :
    ∀ (rs ts : List SharedTaskRow) (r : SharedTaskRow),
      r ∈ rs → (rs.map (fun r => r.id)).Nodup →
      tasksFind (rs.foldl upsertTask ts) r.id = some r := by
  intro rs
  induction rs with
  | nil => intro ts r h; cases h
  | cons r0 rest ih =>
      intro ts r hmem hnodup
      rw [List.foldl_cons]
      rw [List.map_cons] at hnodup
      have hn := List.nodup_cons.mp hnodup
      rcases List.mem_cons.mp hmem with rfl | hmem'
      · rw [tasksFind_foldl_upsert_not_mem rest (upsertTask ts r) r.id hn.1]
        rw [tasksFind_upsert, if_pos rfl]
      · exact ih (upsertTask ts r0) r hmem' hn.2

/-- Removal deletes exactly the rows whose key is listed. -/
theorem tasksFind_removeTasks :
    ∀ (ts : List SharedTaskRow) (ids : List Uuid) (i : Uuid),
      tasksFind (removeTasks ts ids) i =
        if i ∈ ids then none else tasksFind ts i := by
  intro ts
  induction ts with
  | nil =>
      intro ids i
      rw [show removeTasks [] ids = [] from rfl]
      by_cases h : i ∈ ids
      · rw [if_pos h]
        rfl
      · rw [if_neg h]
  | cons t rest ih =>
      intro ids i
      by_cases hc : t.id ∈ ids
      · rw [show removeTasks (t :: rest) ids = removeTasks rest ids from by
          simp [removeTasks, List.filter_cons, hc]]
        rw [ih]
        by_cases hci : i ∈ ids
        · rw [if_pos hci, if_pos hci]
        · rw [if_neg hci, if_neg hci, tasksFind_cons,
            if_neg (fun (he : t.id = i) => hci (he ▸ hc))]
      · rw [show removeTasks (t :: rest) ids = t :: removeTasks rest ids from by
          simp [removeTasks, List.filter_cons, hc]]
        rw [tasksFind_cons, tasksFind_cons, ih]
        by_cases hti : t.id = i
        · rw [if_pos hti, if_neg (hti ▸ hc), if_pos hti]
        · rw [if_neg hti, if_neg hti]

/-- The `shared_tasks` state `bulk_sync` leaves behind: stale rows
removed, then every replacement upserted. -/
theorem bulk_sync_fst_shared_tasks (db : LocalDb) (pid : Uuid)
    (resp : BulkSharedTasksResponse) :
    (bulk_sync db pid resp).1.shared_tasks =
      (resp.tasks.map (fun p => convert_remote_task p.task p.user resp.latest_seq)).foldl
        upsertTask
        (removeTasks db.shared_tasks
          ((((db.shared_tasks.filter
              (fun t => t.remote_project_id = pid)).map (fun t => t.id)).filter
              (fun i => ¬ (resp.tasks.map (fun p => p.task.id)).contains i)) ++
            resp.deleted_task_ids.filter
              (fun d => ¬ (resp.tasks.map (fun p => p.task.id)).contains d))) := by
  obtain ⟨tasks, dels, ls⟩ := resp
  unfold bulk_sync
  cases ls <;> rfl

/-- `bulk_sync` returns the snapshot's `latest_seq`. -/
theorem bulk_sync_snd (db : LocalDb) (pid : Uuid) (resp : BulkSharedTasksResponse) :
    (bulk_sync db pid resp).2 = resp.latest_seq := by
  obtain ⟨tasks, dels, ls⟩ := resp
  unfold bulk_sync
  cases ls <;> rfl

/-- C4: a `None` cursor makes the watcher run `bulk_sync` first, whose one
transaction upserts every returned task, removes every local shared-task
row of the project not in the returned set as well as every
`deleted_task_ids` entry outside it, and writes the cursor to
`latest_seq`; and during page replay, a page whose newest event is more
than 500 (`bulk_sync_threshold`) past the cursor abandons the page and
bulk-syncs instead. -/
theorem client_bulk_sync_claim (cfg : ShareCfg)
    (fetchActivity : Option Int → List ActivityEvent)
    (resp : BulkSharedTasksResponse) (db : LocalDb) (pid : Uuid) (fuel : Nat)
    (hnodup : (resp.tasks.map (fun p => p.task.id)).Nodup) :
    (∀ p ∈ resp.tasks,
      (bulk_sync db pid resp).1.findTask p.task.id =
        some (convert_remote_task p.task p.user resp.latest_seq)) ∧
    (∀ t ∈ db.shared_tasks, t.remote_project_id = pid →
      t.id ∉ resp.tasks.map (fun p => p.task.id) →
      (bulk_sync db pid resp).1.findTask t.id = none) ∧
    (∀ i ∈ resp.deleted_task_ids, i ∉ resp.tasks.map (fun p => p.task.id) →
      (bulk_sync db pid resp).1.findTask i = none) ∧
    (∀ s : Int, resp.latest_seq = some s →
      (bulk_sync db pid resp).1.cursors pid = some s) ∧
    (bulk_sync db pid resp).2 = resp.latest_seq ∧
    (catch_up_project cfg fetchActivity resp db pid none fuel =
      catchUpProjectLoop cfg fetchActivity resp pid fuel
        (bulk_sync db pid resp).1 (bulk_sync db pid resp).2) ∧
    (∀ (prev : Int) (newest : ActivityEvent),
      (fetchActivity (some prev)).getLast? = some newest →
      (cfg.bulk_sync_threshold : Int) < i64SaturatingSub newest.seq prev →
      catchUpProjectLoop cfg fetchActivity resp pid (fuel + 1) db (some prev) =
        catchUpProjectLoop cfg fetchActivity resp pid fuel
          (bulk_sync db pid resp).1 (bulk_sync db pid resp).2) := by
  have hmapids : (resp.tasks.map
      (fun p => convert_remote_task p.task p.user resp.latest_seq)).map
        (fun r => r.id) = resp.tasks.map (fun p => p.task.id) := by
    rw [List.map_map]
    rfl
  refine ⟨?_, ?_, ?_, ?_, bulk_sync_snd db pid resp, ?_, ?_⟩
  · intro p hp
    rw [LocalDb.findTask, bulk_sync_fst_shared_tasks]
    have hmem : convert_remote_task p.task p.user resp.latest_seq ∈
        resp.tasks.map (fun p => convert_remote_task p.task p.user resp.latest_seq) :=
      List.mem_map_of_mem _ hp
    exact tasksFind_foldl_upsert_mem _ _ _ hmem (by rw [hmapids]; exact hnodup)
  · intro t ht hproj hkeep
    rw [LocalDb.findTask, bulk_sync_fst_shared_tasks]
    rw [tasksFind_foldl_upsert_not_mem _ _ _ (by rw [hmapids]; exact hkeep)]
    rw [tasksFind_removeTasks, if_pos ?_]
    refine List.mem_append.mpr (Or.inl ?_)
    refine List.mem_filter.mpr ⟨?_, ?_⟩
    · exact List.mem_map_of_mem _ (List.mem_filter.mpr ⟨ht, by simp [hproj]⟩)
    · simpa using hkeep
  · intro i hi hkeep
    rw [LocalDb.findTask, bulk_sync_fst_shared_tasks]
    rw [tasksFind_foldl_upsert_not_mem _ _ _ (by rw [hmapids]; exact hkeep)]
    rw [tasksFind_removeTasks, if_pos ?_]
    refine List.mem_append.mpr (Or.inr ?_)
    exact List.mem_filter.mpr ⟨hi, by simpa using hkeep⟩
  · intro s hs
    obtain ⟨tasks, dels, ls⟩ := resp
    simp only at hs
    subst hs
    unfold bulk_sync
    simp [LocalDb.setCursor]
  · rfl
  · intro prev newest hlast hth
    have hne : ¬ ((fetchActivity (some prev)).isEmpty = true) := by
      rw [List.isEmpty_iff]
      intro h0
      rw [h0] at hlast
      cases hlast
    simp only [catchUpProjectLoop]
    rw [if_neg hne, hlast]
    rw [if_pos (by
      dsimp only
      exact decide_eq_true hth)]

/-- Witness for C4: one returned task (id 10), one stale local row
(id 12) of the same project, one deleted id (11), `latest_seq = 42`; and
a page whose newest event (seq 600) is 550 past the cursor 50. -/
theorem client_bulk_sync_claim_witness :
    (bulk_sync wDb 7 wResp).1.findTask 12 = none ∧
    (bulk_sync wDb 7 wResp).1.cursors 7 = some 42 ∧
    catchUpProjectLoop wCfg wFetch wResp 7 1 wDb (some 50) =
      catchUpProjectLoop wCfg wFetch wResp 7 0
        (bulk_sync wDb 7 wResp).1 (bulk_sync wDb 7 wResp).2 :=
  ⟨(client_bulk_sync_claim wCfg wFetch wResp wDb 7 0 (by decide)).2.1
      wRow (by simp [wDb]) rfl (by decide),
   (client_bulk_sync_claim wCfg wFetch wResp wDb 7 0 (by decide)).2.2.2.1 42 rfl,
   (client_bulk_sync_claim wCfg wFetch wResp wDb 7 0 (by decide)).2.2.2.2.2.2
      50 (mkEvent 7 600) rfl (by decide)⟩

end VibeKanban
